import Mathlib

/-!
Verification development for the OpenXiino transcoding proxy.

Shallow embedding of the core algorithms of the repository:
the scanline bitmap coder (`lib/scanline.py`), the mode-9 coder
(`lib/mode9.py`), the Floyd-Steinberg ditherer (`lib/dithering.py`),
the EBD image converter (`lib/xiino_image_converter.py`) and the
HTML page composer (`lib/xiino_html_converter.py`).

Machine integers are modelled as `Nat`/`Int`; byte strings as `List Nat`;
Python floats used for the small exact fractions (7/16, 1.2, ...) are
modelled as `Rat`.
-/

namespace OpenXiino

/-- Decidable equality for `Except` results. -/
instance {ε α : Type} [DecidableEq ε] [DecidableEq α] :
    DecidableEq (Except ε α) := fun a b =>
  match a, b with
  | .ok x, .ok y =>
    if h : x = y then isTrue (by rw [h])
    else isFalse (fun hc => h (Except.ok.inj hc))
  | .error x, .error y =>
    if h : x = y then isTrue (by rw [h])
    else isFalse (fun hc => h (Except.error.inj hc))
  | .ok _, .error _ => isFalse (fun hc => Except.noConfusion hc)
  | .error _, .ok _ => isFalse (fun hc => Except.noConfusion hc)

/-! ### Python string primitives

The embedding implements the string operations the sources use
(`str.upper`, `str.lower`, `str.strip`, `str.startswith`, slicing) over
the character list of the string; the inputs involved are ASCII, where
these agree with Python's unicode-aware versions. -/

/-- ASCII upper-casing of one character. -/
def upChar (c : Char) : Char :=
  if 'a' ≤ c ∧ c ≤ 'z' then Char.ofNat (c.toNat - 32) else c

/-- ASCII lower-casing of one character. -/
def lowChar (c : Char) : Char :=
  if 'A' ≤ c ∧ c ≤ 'Z' then Char.ofNat (c.toNat + 32) else c

/-- `str.upper()`. -/
def pyUpper (s : String) : String :=
  String.mk (s.data.map upChar)

/-- `str.lower()`. -/
def pyLower (s : String) : String :=
  String.mk (s.data.map lowChar)

/-- Python whitespace for `str.strip()`. -/
def pyWS (c : Char) : Bool :=
  c = ' ' ∨ c = '\t' ∨ c = '\n' ∨ c = '\x0d' ∨ c = '\x0b' ∨ c = '\x0c'

/-- `str.strip()`. -/
def pyStrip (s : String) : String :=
  String.mk (((s.data.dropWhile pyWS).reverse.dropWhile pyWS).reverse)

/-- `str.startswith(p)`. -/
def pyStartsWith (s p : String) : Bool :=
  List.isPrefixOf p.data s.data

/-- The slice `s[n:]`. -/
def pyDrop (s : String) (n : Nat) : String :=
  String.mk (s.data.drop n)

/-! ## Scanline coder (`lib/scanline.py`) -/

/-- `range(0, stop, 8)` for a Python `int` stop that may be negative;
callers pass `stop = len(line) - 8`, so truncated `Nat` subtraction
matches Python (a non-positive stop yields the empty range). -/
def range8 (stop : Nat) : List Nat :=
  (List.range ((stop + 7) / 8)).map (fun i => 8 * i)

/-- The change mask of one chunk: bit `7 - t` is set iff byte `t` of the
chunk differs from the previous row (numpy `packbits` packs MSB-first). -/
def chunkMask (line prev : List Nat) : Nat :=
  (List.range line.length).foldl
    (fun acc t => if line.getD t 0 ≠ prev.getD t 0 then acc + 2 ^ (7 - t) else acc) 0

/-- The bytes of a chunk whose change bit is set, in order. -/
def changedBytes (line prev : List Nat) : List Nat :=
  ((line.zip prev).filter (fun p => p.1 ≠ p.2)).map Prod.fst

/-- `compress_scanline` from `lib/scanline.py`.  The first-line branch
walks `range(0, len(line) - 8, 8)` emitting `0xFF` plus eight literal
bytes per chunk, then handles `len(line) % 8` remaining bytes with a
high-aligned mask; later lines emit a change mask and the changed bytes.
Returns `Except.error ()` for the `ValueError` on mismatched lines. -/
def compress_scanline (line : List Nat) (prev_line : List Nat)
    (first_line : Bool) : Except Unit (List Nat) :=
  if ¬first_line ∧ prev_line.length < line.length then
    .error ()
  else
    let remaining := line.length % 8
    if first_line then
      let full := (range8 (line.length - 8)).map
        (fun i => 0xFF :: ((line.drop i).take 8))
      let tail :=
        if 0 < remaining then
          [((0xFF <<< (8 - remaining)) % 256) :: (line.drop (line.length - remaining))]
        else []
      .ok ((full ++ tail).flatten)
    else
      let full := (range8 (line.length - 8)).map
        (fun i =>
          let c := (line.drop i).take 8
          let p := (prev_line.drop i).take 8
          chunkMask c p :: changedBytes c p)
      let tail :=
        if 0 < remaining then
          let c := line.drop (line.length - remaining)
          let p := prev_line.drop (prev_line.length - remaining)
          [chunkMask c p :: changedBytes c p]
        else []
      .ok ((full ++ tail).flatten)

/-- Chunking worker; the fuel argument only bounds the number of
iterations (each step removes `n ≥ 1` elements, so `l.length` steps
always suffice) and keeps the recursion structural. -/
def chunksOfAux (fuel n : Nat) (l : List Nat) : List (List Nat) :=
  match fuel with
  | 0 => []
  | fuel + 1 =>
    if l = [] ∨ n = 0 then []
    else l.take n :: chunksOfAux fuel n (l.drop n)

/-- Split a list into chunks of `n` elements (the reshape into rows). -/
def chunksOf (n : Nat) (l : List Nat) : List (List Nat) :=
  chunksOfAux l.length n l

/-- `compress_data_with_scanline` from `lib/scanline.py`: reshape the
data into rows of `width` bytes (numpy raises unless the length is an
exact multiple, and indexing `rows[0]` requires at least one row), then
compress the first row with `first_line = True` and each later row
against its predecessor. -/
def compress_data_with_scanline (data : List Nat) (width : Nat) :
    Except Unit (List Nat) :=
  if width = 0 ∨ ¬ (width ∣ data.length) ∨ data.length = 0 then .error ()
  else
    let rows := chunksOf width data
    match compress_scanline (rows.getD 0 []) [] true with
    | .error e => .error e
    | .ok first =>
      (List.range (rows.length - 1)).foldl
        (fun acc i =>
          match acc with
          | .error e => .error e
          | .ok buf =>
            match compress_scanline (rows.getD (i + 1) []) (rows.getD i []) false with
            | .error e => .error e
            | .ok b => .ok (buf ++ b))
        (.ok first)

/-! ## Mode-9 coder (`lib/mode9.py`)

Pixels are RGB triples of Python ints.  The Lab-space nearest-palette
search `find_closest_palette_index` (float arithmetic over the palette
table from `lib/xiino_palette_common.py`, which is not part of the
sources) enters the coder only as an opaque function: `fcpi` for the
error-free form used for literals, `fcpiE` for the error-diffusing form
used by the dithering phase. -/

/-- An RGB pixel as produced by `PIL.Image.getdata()`. -/
abbrev Pixel : Type := Int × Int × Int

/-- Default pixel for out-of-range indexing (never reached on the
in-range accesses the source performs). -/
def pixel0 : Pixel := ((0 : Int), (0 : Int), (0 : Int))

/-- A per-channel quantization error triple (Python floats, modelled
exactly as rationals). -/
abbrev Err : Type := Rat × Rat × Rat

/-- Modelled from the spec: the `CONTROL_CODES` table of
`lib/ebd_control_codes.py` is not part of the sources.  The spec fixes
the key set (`RLE_k` for k in 1..6, `COPY_k_OFFSET_o` for k in 1..6 and
o in -1,0,1) and requires the byte values to be disjoint from the 231
palette indices (0..230); the concrete values below occupy 231 upward
in table order, which the spec leaves immaterial. -/
def CONTROL_CODES (key : String) : Nat :=
  ((([
    ("RLE_1", 231), ("RLE_2", 232), ("RLE_3", 233),
    ("RLE_4", 234), ("RLE_5", 235), ("RLE_6", 236),
    ("COPY_1_OFFSET_-1", 237), ("COPY_2_OFFSET_-1", 238),
    ("COPY_3_OFFSET_-1", 239), ("COPY_4_OFFSET_-1", 240),
    ("COPY_5_OFFSET_-1", 241), ("COPY_6_OFFSET_-1", 242),
    ("COPY_1_OFFSET_0", 243), ("COPY_2_OFFSET_0", 244),
    ("COPY_3_OFFSET_0", 245), ("COPY_4_OFFSET_0", 246),
    ("COPY_5_OFFSET_0", 247), ("COPY_6_OFFSET_0", 248),
    ("COPY_1_OFFSET_1", 249), ("COPY_2_OFFSET_1", 250),
    ("COPY_3_OFFSET_1", 251), ("COPY_4_OFFSET_1", 252),
    ("COPY_5_OFFSET_1", 253), ("COPY_6_OFFSET_1", 254)
  ] : List (String × Nat)).find? (fun p => p.1 == key)).map Prod.snd).getD 0

/-- The RLE scan of `compress_line`:
`while index + rle_length < len(line) and line[index + rle_length] == pixel:
rle_length += 1`.  Fuel keeps the recursion structural; the scan makes at
most `line.length - i` steps, so the caller's fuel is always enough. -/
def rleRunAux (line : List Pixel) (pixel : Pixel) (i : Nat) :
    Nat → Nat → Nat
  | 0, k => k
  | fuel + 1, k =>
    if i + k < line.length ∧ line.getD (i + k) pixel0 = pixel then
      rleRunAux line pixel i fuel (k + 1)
    else k

/-- Full RLE run length at `i` (counts the current pixel too). -/
def rleRun (line : List Pixel) (pixel : Pixel) (i : Nat) : Nat :=
  rleRunAux line pixel i (line.length + 1) 0

/-- One look-back scan of `compress_line`: count matches of
`line[i+k] == prev[j+k]` subject to both bounds checks, incrementing and
then breaking as soon as the count reaches `window` (the Python loop
increments first and tests `>= window_size` after). -/
def matchRunAux (line prev : List Pixel) (i j window : Nat) :
    Nat → Nat → Nat
  | 0, k => k
  | fuel + 1, k =>
    if i + k < line.length ∧ j + k < prev.length ∧
        line.getD (i + k) pixel0 = prev.getD (j + k) pixel0 then
      if window ≤ k + 1 then k + 1
      else matchRunAux line prev i j window fuel (k + 1)
    else k

/-- Look-back run length, capped by the sliding window. -/
def matchRun (line prev : List Pixel) (i j window : Nat) : Nat :=
  matchRunAux line prev i j window (window + 1) 0

/-- `best_compression = max(compare_dict, key=compare_dict.get)` over
`compare_dict = (rle * 1.2, lb_-1, lb_0 * 1.1, lb_1)`: Python's `max`
returns the first key attaining the maximum in insertion order
`rle, lb_-1, lb_0, lb_1`.  The float weights 1.2 and 1.1 are the exact
rationals 6/5 and 11/10.  Result encoding: 0 = rle, 1 = lb_-1,
2 = lb_0, 3 = lb_1. -/
def mode9Best (rle lbA lbB lbC : Nat) : Nat :=
  let rV : Rat := (rle : Rat) * (6 / 5)
  let aV : Rat := (lbA : Rat)
  let bV : Rat := (lbB : Rat) * (11 / 10)
  let cV : Rat := (lbC : Rat)
  if aV ≤ rV ∧ bV ≤ rV ∧ cV ≤ rV then 0
  else if bV ≤ aV ∧ cV ≤ aV then 1
  else if cV ≤ bV then 2
  else 3

/-- `mode9Best` with the rational comparisons cross-multiplied into
integer comparisons (`mode9Best_eq_fast` proves the two agree); used to
evaluate the coder by kernel reduction. -/
def mode9BestFast (rle lbA lbB lbC : Nat) : Nat :=
  if 5 * lbA ≤ 6 * rle ∧ 11 * lbB ≤ 12 * rle ∧ 5 * lbC ≤ 6 * rle then 0
  else if 11 * lbB ≤ 10 * lbA ∧ lbC ≤ lbA then 1
  else if 10 * lbC ≤ 11 * lbB then 2
  else 3

/-- The body of `compress_line`'s `while index < len(line)` loop.  Each
iteration advances `index` by at least one (the chosen method's length
is positive whenever its branch is taken), so `line.length + 1` fuel is
always enough.  The net advance of the RLE branch is
`rle_length + 1` (`index += rle_length` plus the trailing `index += 1`)
and of a look-back branch `lb_len` (`index += lb_len - 1` plus one). -/
def compressLineGo (fcpi : Pixel → Nat) (line prev : List Pixel)
    (first_line : Bool) : Nat → Nat → List Nat → List Nat
  | 0, _, buffer => buffer
  | fuel + 1, index, buffer =>
    if index < line.length then
      let pixel := line.getD index pixel0
      let window := min 21 (line.length - index)
      let lbA : Nat := if ¬first_line ∧ 0 < index then
          matchRun line prev index (index - 1) window else 0
      let lbB : Nat := if ¬first_line then
          matchRun line prev index index window else 0
      let lbC : Nat := if ¬first_line ∧ index + 1 < prev.length then
          matchRun line prev index (index + 1) window else 0
      let rle := if line.length - 1 < index + 1 then 0
        else if line.getD (index + 1) pixel0 ≠ pixel then 0
        else rleRun line pixel index
      if rle = 0 ∧ lbA = 0 ∧ lbB = 0 ∧ lbC = 0 then
        compressLineGo fcpi line prev first_line fuel (index + 1)
          (buffer ++ [fcpi pixel])
      else if mode9Best rle lbA lbB lbC = 0 then
        let codes := if 6 ≤ rle then [CONTROL_CODES "RLE_6", rle - 6]
          else [CONTROL_CODES ("RLE_" ++ toString rle)]
        compressLineGo fcpi line prev first_line fuel (index + rle + 1)
          (buffer ++ [fcpi pixel] ++ codes)
      else if mode9Best rle lbA lbB lbC = 1 then
        let codes := if 1 ≤ lbA ∧ lbA ≤ 5 then
            [CONTROL_CODES ("COPY_" ++ toString lbA ++ "_OFFSET_-1")]
          else [CONTROL_CODES "COPY_6_OFFSET_-1", lbA - 6]
        compressLineGo fcpi line prev first_line fuel (index + lbA)
          (buffer ++ codes)
      else if mode9Best rle lbA lbB lbC = 2 then
        let codes := if 1 ≤ lbB ∧ lbB ≤ 5 then
            [CONTROL_CODES ("COPY_" ++ toString lbB ++ "_OFFSET_0")]
          else [CONTROL_CODES "COPY_6_OFFSET_0", lbB - 6]
        compressLineGo fcpi line prev first_line fuel (index + lbB)
          (buffer ++ codes)
      else
        let codes := if 1 ≤ lbC ∧ lbC ≤ 5 then
            [CONTROL_CODES ("COPY_" ++ toString lbC ++ "_OFFSET_1")]
          else [CONTROL_CODES "COPY_6_OFFSET_1", lbC - 6]
        compressLineGo fcpi line prev first_line fuel (index + lbC)
          (buffer ++ codes)
    else buffer

/-- `compressLineGo` with `mode9Best` replaced by `mode9BestFast`
(`compressLineGo_eq_fast` proves the two agree); used to evaluate the
coder by kernel reduction. -/
def compressLineGoFast (fcpi : Pixel → Nat) (line prev : List Pixel)
    (first_line : Bool) : Nat → Nat → List Nat → List Nat
  | 0, _, buffer => buffer
  | fuel + 1, index, buffer =>
    if index < line.length then
      let pixel := line.getD index pixel0
      let window := min 21 (line.length - index)
      let lbA : Nat := if ¬first_line ∧ 0 < index then
          matchRun line prev index (index - 1) window else 0
      let lbB : Nat := if ¬first_line then
          matchRun line prev index index window else 0
      let lbC : Nat := if ¬first_line ∧ index + 1 < prev.length then
          matchRun line prev index (index + 1) window else 0
      let rle := if line.length - 1 < index + 1 then 0
        else if line.getD (index + 1) pixel0 ≠ pixel then 0
        else rleRun line pixel index
      if rle = 0 ∧ lbA = 0 ∧ lbB = 0 ∧ lbC = 0 then
        compressLineGoFast fcpi line prev first_line fuel (index + 1)
          (buffer ++ [fcpi pixel])
      else if mode9BestFast rle lbA lbB lbC = 0 then
        let codes := if 6 ≤ rle then [CONTROL_CODES "RLE_6", rle - 6]
          else [CONTROL_CODES ("RLE_" ++ toString rle)]
        compressLineGoFast fcpi line prev first_line fuel (index + rle + 1)
          (buffer ++ [fcpi pixel] ++ codes)
      else if mode9BestFast rle lbA lbB lbC = 1 then
        let codes := if 1 ≤ lbA ∧ lbA ≤ 5 then
            [CONTROL_CODES ("COPY_" ++ toString lbA ++ "_OFFSET_-1")]
          else [CONTROL_CODES "COPY_6_OFFSET_-1", lbA - 6]
        compressLineGoFast fcpi line prev first_line fuel (index + lbA)
          (buffer ++ codes)
      else if mode9BestFast rle lbA lbB lbC = 2 then
        let codes := if 1 ≤ lbB ∧ lbB ≤ 5 then
            [CONTROL_CODES ("COPY_" ++ toString lbB ++ "_OFFSET_0")]
          else [CONTROL_CODES "COPY_6_OFFSET_0", lbB - 6]
        compressLineGoFast fcpi line prev first_line fuel (index + lbB)
          (buffer ++ codes)
      else
        let codes := if 1 ≤ lbC ∧ lbC ≤ 5 then
            [CONTROL_CODES ("COPY_" ++ toString lbC ++ "_OFFSET_1")]
          else [CONTROL_CODES "COPY_6_OFFSET_1", lbC - 6]
        compressLineGoFast fcpi line prev first_line fuel (index + lbC)
          (buffer ++ codes)
    else buffer

/-- `compress_line` from `lib/mode9.py`.  `prev` is ignored when
`first_line = true` (the source passes `None` there). -/
def compress_line (fcpi : Pixel → Nat) (line prev : List Pixel)
    (first_line : Bool) : List Nat :=
  compressLineGo fcpi line prev first_line (line.length + 1) 0 []

/-- Scale an error triple by a weight (`tuple(e * w for e in quant_error)`). -/
def scaleErr (e : Err) (w : Rat) : Err :=
  (e.1 * w, e.2.1 * w, e.2.2 * w)

/-- Add two error triples componentwise. -/
def addErr (a b : Err) : Err :=
  (a.1 + b.1, a.2.1 + b.2.1, a.2.2 + b.2.2)

/-- The error-buffer update of `compress_mode9`: cell `(y, x)` becomes the
scaled error if it was `None`, otherwise the componentwise sum with it. -/
def bufAdd (buf : List (List (Option Err))) (y x : Nat) (v : Err) :
    List (List (Option Err)) :=
  let row := buf.getD y []
  let cell := match row.getD x none with
    | none => v
    | some w => addErr w v
  buf.set y (row.set x (some cell))

/-- The inner (per-pixel) step of `compress_mode9`'s dithering loop:
read the accumulated error (a `None` cell counts as zero), run the
error-diffusing quantizer, store the *original* pixel into the row being
built, and distribute the quantization error with the Floyd-Steinberg
weights (east into the current row; the three lower neighbours only when
`y < height - 1`). -/
def mode9DitherStep (fcpiE : Pixel → Err → Nat × Err)
    (data : List Pixel) (width height y : Nat)
    (st : List (List (Option Err)) × List Pixel) (x : Nat) :
    List (List (Option Err)) × List Pixel :=
  let errBuf := st.1
  let rowData := st.2
  let pixel := data.getD (y * width + x) pixel0
  let error := ((errBuf.getD y []).getD x none).getD ((0 : Rat), (0 : Rat), (0 : Rat))
  let qe := (fcpiE pixel error).2
  let rowData2 := rowData ++ [pixel]
  let b1 := if x < width - 1 then bufAdd errBuf y (x + 1) (scaleErr qe (7 / 16))
    else errBuf
  let b2 := if y < height - 1 then
      let c1 := if 0 < x then bufAdd b1 (y + 1) (x - 1) (scaleErr qe (3 / 16)) else b1
      let c2 := bufAdd c1 (y + 1) x (scaleErr qe (5 / 16))
      if x < width - 1 then bufAdd c2 (y + 1) (x + 1) (scaleErr qe (1 / 16)) else c2
    else b1
  (b2, rowData2)

/-- `compress_mode9` from `lib/mode9.py`: the Floyd-Steinberg phase
iterates over all pixels, threading the error buffer, and collects the
rows of *original* pixels (`row_data.append(pixel)`); its quantization
results are never used afterwards.  The compression phase then encodes
each row against its predecessor with `compress_line`. -/
def compress_mode9 (fcpiE : Pixel → Err → Nat × Err) (fcpi : Pixel → Nat)
    (width height : Nat) (data : List Pixel) : List Nat :=
  let init : List (List (Option Err)) :=
    List.replicate height (List.replicate width none)
  let phase1 := (List.range height).foldl
    (fun st y =>
      let rowStep := (List.range width).foldl
        (mode9DitherStep fcpiE data width height y) (st.1, [])
      (rowStep.1, st.2 ++ [rowStep.2]))
    (init, ([] : List (List Pixel)))
  let rows := phase1.2
  (List.range rows.length).foldl
    (fun buffer i =>
      if i = 0 then buffer ++ compress_line fcpi (rows.getD 0 []) [] true
      else buffer ++ compress_line fcpi (rows.getD i []) (rows.getD (i - 1) []) false)
    []

/-- The comparison variant of `compress_mode9` with the Floyd-Steinberg
error-diffusion phase removed: the rows are taken directly from the
image data and encoded with `compress_line`. -/
def compress_mode9_no_dither (fcpi : Pixel → Nat)
    (width height : Nat) (data : List Pixel) : List Nat :=
  let rows := (List.range height).map
    (fun y => (List.range width).map (fun x => data.getD (y * width + x) pixel0))
  (List.range rows.length).foldl
    (fun buffer i =>
      if i = 0 then buffer ++ compress_line fcpi (rows.getD 0 []) [] true
      else buffer ++ compress_line fcpi (rows.getD i []) (rows.getD (i - 1) []) false)
    []

/-! ## EBD image converter (`lib/xiino_image_converter.py`)

The grayscale converters operate on the inverted-grayscale image
(`PIL.ImageOps.invert(self.image.convert("L"))`), modelled as a matrix
of byte values together with the image width. -/

/-- The raster scaling branch of `EBDConverter._initialize`
(lines 154-159): images wider than 306 get width 153 and height
`ceil(H * 153 / W)`; *all* other images have both dimensions ceil-halved.
`math.ceil((H / W) * 153)` is modelled as the exact rational ceiling;
the halving branch (`ceil(W / 2)`, `ceil(H / 2)`) is float-exact. -/
def scale_dims (w h : Nat) : Nat × Nat :=
  if 306 < w then (153, (h * 153 + w - 1) / w)
  else ((w + 1) / 2, (h + 1) / 2)

/-- Python `round(c / 16)` for a byte `c`: `c / 16` is exact in binary
floating point, so this is round-half-to-even on the exact rational. -/
def pyRound16 (c : Nat) : Nat :=
  let q := c / 16
  let r := c % 16
  if r < 8 then q
  else if 8 < r then q + 1
  else if q % 2 = 0 then q else q + 1

/-- The byte accumulation of `_convert_mode2`:
`for i, val in enumerate(reversed(chunk)): byte |= (floor(val / 64) << (i * 2))`. -/
def mode2ByteGo : List Nat → Nat → Nat → Nat
  | [], _, acc => acc
  | v :: rest, i, acc => mode2ByteGo rest (i + 1) (acc ||| ((v / 64) <<< (i * 2)))

/-- One packed byte of the 2-bit grayscale mode. -/
def mode2Byte (chunk : List Nat) : Nat :=
  mode2ByteGo chunk.reverse 0 0

/-- `_convert_mode2`: uncompressed 2-bit grayscale packing, four pixels
per byte, rows chunked independently. -/
def convert_mode2 (gs : List (List Nat)) : List Nat :=
  (gs.map (fun row => (chunksOf 4 row).map mode2Byte)).flatten

/-- One packed byte of the 4-bit grayscale mode:
`val1 = min(15, round(chunk[0] / 16))`, `val2 = 0` for a lone trailing
pixel, else `min(15, round(chunk[1] / 16))`; byte `= (val1 << 4) | val2`. -/
def mode4Byte (chunk : List Nat) : Nat :=
  let v1 := min 15 (pyRound16 (chunk.getD 0 0))
  let v2 := if chunk.length < 2 then 0 else min 15 (pyRound16 (chunk.getD 1 0))
  (v1 <<< 4) ||| v2

/-- `_convert_mode4`: uncompressed 4-bit grayscale packing, two nibbles
per byte. -/
def convert_mode4 (gs : List (List Nat)) : List Nat :=
  (gs.map (fun row => (chunksOf 2 row).map mode4Byte)).flatten

/-- `_convert_mode3`: scanline compression of the mode-2 bytes with
`width_bytes = ceil(width / 2)`. -/
def convert_mode3 (gs : List (List Nat)) (width : Nat) : Except Unit (List Nat) :=
  compress_data_with_scanline (convert_mode2 gs) ((width + 1) / 2)

/-- `_convert_mode5`: scanline compression of the mode-4 bytes with
`width_bytes = ceil(width / 4)`. -/
def convert_mode5 (gs : List (List Nat)) (width : Nat) : Except Unit (List Nat) :=
  compress_data_with_scanline (convert_mode4 gs) ((width + 3) / 4)

/-- `EBDConverter.convert_gs`: dispatch on `depth` and the `compressed`
flag, returning the numeric EBD mode together with the payload bytes
(the `ValueError` for unsupported depths is `Except.error`). -/
def convert_gs (gs : List (List Nat)) (width depth : Nat)
    (compressed : Bool) : Except Unit (Nat × List Nat) :=
  if depth = 2 then
    if compressed then (convert_mode3 gs width).map (fun d => (3, d))
    else .ok (2, convert_mode2 gs)
  else if depth = 4 then
    if compressed then .ok (4, convert_mode4 gs)
    else (convert_mode5 gs width).map (fun d => (5, d))
  else .error ()

/-! ## Floyd-Steinberg ditherer (`lib/dithering.py`)

`apply_floyd_steinberg_dithering` takes the image as a matrix of values
(one channel shown; the numpy operations broadcast identically per
channel) and the row-vectorized quantizer `find_closest_color_fn` as an
opaque elementwise function returning (index, error).  Only the `indices`
output is embedded: the `processed_data` output is a palette lookup
(`PALETTE_ARRAY[row_indices]`) over the palette table from
`lib/xiino_palette_common.py`, which is not part of the sources, and no
claim refers to it. -/

/-- `np.clip(v, 0, 255)`. -/
def clip255 (x : Rat) : Rat := max 0 (min 255 x)

/-- Componentwise sum of two equal-length rows (`+=` on a numpy row). -/
def addVec (a b : List Rat) : List Rat := List.zipWith (fun x y => x + y) a b

/-- A zero row. -/
def zeroVec (w : Nat) : List Rat := List.replicate w 0

/-- `error_buffer[y, 1:] += quant_errors[:-1] * 7/16` as the vector added
to row `y`: position `j + 1` receives `7/16` of the error of pixel `j`. -/
def eastVec (qErr : List Rat) : List Rat :=
  0 :: qErr.dropLast.map (fun e => e * (7 / 16))

/-- `error_buffer[y+1, :-1] += quant_errors[1:] * 3/16`: position `j`
receives `3/16` of the error of pixel `j + 1`. -/
def swVec (qErr : List Rat) : List Rat :=
  (qErr.drop 1).map (fun e => e * (3 / 16)) ++ [0]

/-- `error_buffer[y+1, :] += quant_errors * 5/16`. -/
def sVec (qErr : List Rat) : List Rat :=
  qErr.map (fun e => e * (5 / 16))

/-- `if width > 1: error_buffer[y+1, 1:] += quant_errors[:-1] * 1/16`:
position `j + 1` receives `1/16` of the error of pixel `j`. -/
def seVec (width : Nat) (qErr : List Rat) : List Rat :=
  if 1 < width then 0 :: qErr.dropLast.map (fun e => e * (1 / 16))
  else zeroVec qErr.length

/-- The row loop of `apply_floyd_steinberg_dithering`, threading the
full error-buffer matrix exactly as the source does: row `y` is clipped
against `error_buffer[y]`, quantized in one vectorized call, and only
then (and only when `y < height - 1`) are the four weighted error
vectors accumulated - the east vector into `error_buffer[y]` itself,
which has already been consumed, and the other three into
`error_buffer[y+1]`.  Fuel keeps the recursion structural; the caller
passes `height`, which is exact. -/
def fsAux (q : Rat → Nat × Rat) (data : List (List Rat))
    (height width : Nat) : Nat → Nat → List (List Rat) → List (List Nat)
  | 0, _, _ => []
  | fuel + 1, y, errBuf =>
    if y < height then
      let row := data.getD y []
      let ebY := errBuf.getD y []
      let rwe := List.zipWith (fun d e => clip255 (d + e)) row ebY
      let idxRow := rwe.map (fun v => (q v).1)
      let qErr := rwe.map (fun v => (q v).2)
      let errBuf2 :=
        if y < height - 1 then
          let ebYnew := addVec ebY (eastVec qErr)
          let ebY1new := addVec (addVec (addVec (errBuf.getD (y + 1) [])
            (swVec qErr)) (sVec qErr)) (seVec width qErr)
          (errBuf.set y ebYnew).set (y + 1) ebY1new
        else errBuf
      idxRow :: fsAux q data height width fuel (y + 1) errBuf2
    else []

/-- The `indices` result of `apply_floyd_steinberg_dithering` from
`lib/dithering.py`. -/
def apply_floyd_steinberg_dithering (data : List (List Rat))
    (q : Rat → Nat × Rat) : List (List Nat) :=
  fsAux q data data.length (data.headD []).length data.length 0
    (data.map (fun r => r.map (fun _ => (0 : Rat))))

/-- Comparison variant: row-vectorized Floyd-Steinberg where each row is
quantized against a carry built *only* from the previous row's errors
with the southwest 3/16, south 5/16 and southeast 1/16 weights - i.e.
with the east 7/16 contribution dropped entirely. -/
def fsNoEastGo (q : Rat → Nat × Rat) (width : Nat) :
    List (List Rat) → List Rat → List (List Nat)
  | [], _ => []
  | row :: rest, carry =>
    let rwe := List.zipWith (fun d e => clip255 (d + e)) row carry
    let idxRow := rwe.map (fun v => (q v).1)
    let qErr := rwe.map (fun v => (q v).2)
    let carry2 := addVec (addVec (addVec (zeroVec width) (swVec qErr))
      (sVec qErr)) (seVec width qErr)
    idxRow :: fsNoEastGo q width rest carry2

/-- Entry point of the no-east comparison variant. -/
def fsNoEast (data : List (List Rat)) (q : Rat → Nat × Rat) :
    List (List Nat) :=
  fsNoEastGo q (data.headD []).length data (zeroVec (data.headD []).length)

/-! ## HTML page composer (`lib/xiino_html_converter.py`)

`XiinoHTMLParser` is driven by the callbacks of Python's
`html.parser.HTMLParser` (an external collaborator), which delivers
lower-cased tag and attribute names.  The embedding therefore runs over
the stream of tokenizer events.  Image tasks run concurrently and
finalize their reserved slot when they complete; a completion list
`(buffer index, outcome)` models the order in which tasks reach their
finalize step, and slot writes happen in that order. -/

/-- `SUPPORTED_TAGS`. -/
def SUPPORTED_TAGS : List String :=
  ["A", "ADDRESS", "AREA", "B", "BASE", "BASEFONT", "BLINK", "BLOCKQUOTE",
   "BODY", "BGCOLOR", "BR", "CLEAR", "CENTER", "CAPTION", "CITE", "CODE",
   "DD", "DIR", "DIV", "DL", "DT", "FONT", "FORM", "FRAME", "FRAMESET",
   "H1", "H2", "H3", "H4", "H5", "H6", "HR", "I", "IMG", "INPUT",
   "ISINDEX", "KBD", "LI", "MAP", "META", "MULTICOL", "NOBR", "NOFRAMES",
   "OL", "OPTION", "P", "PLAINTEXT", "PRE", "S", "SELECT", "SMALL",
   "STRIKE", "STRONG", "STYLE", "SUB", "SUP", "TABLE", "TITLE",
   "TD", "TH", "TR", "TT", "U", "UL", "VAR", "XMP", "HEAD"]

/-- `SUPPORTED_ATTRIBUTES` (per-tag attribute whitelist). -/
def SUPPORTED_ATTRIBUTES : List (String × List String) :=
  [("A", ["HREF", "NAME", "TARGET", "ONCLICK"]),
   ("AREA", ["COORDS", "HREF", "SHAPE", "TARGET", "NOHREF"]),
   ("BASE", ["HREF"]),
   ("BASEFONT", ["SIZE", "COLOR"]),
   ("BODY", ["BGCOLOR", "TEXT", "LINK", "VLINK", "ALINK", "ONLOAD",
     "ONUNLOAD", "EBDWIDTH", "EBDHEIGHT"]),
   ("BR", ["CLEAR"]),
   ("DIV", ["ALIGN"]),
   ("DL", ["COMPACT"]),
   ("FORM", ["LOCAL", "METHOD", "ACTION", "ONRESET", "ONSUBMIT"]),
   ("FRAME", ["SRC", "NAME"]),
   ("FRAMESET", ["COLS", "ROWS"]),
   ("H1", ["ALIGN"]), ("H2", ["ALIGN"]), ("H3", ["ALIGN"]),
   ("H4", ["ALIGN"]), ("H5", ["ALIGN"]), ("H6", ["ALIGN"]),
   ("HR", ["SIZE", "WIDTH", "NOSHADE", "ALIGN"]),
   ("IMG", ["WIDTH", "HEIGHT", "BORDER", "HSPACE", "VSPACE", "ALIGN",
     "ISMAP", "USEMAP", "ALT", "SRC"]),
   ("INPUT", ["NAME", "VALUE", "TYPE", "MAXLENGTH", "SIZE", "DISABLED",
     "CHECKED", "ONBLUR", "ONCHANGE", "ONCLICK", "ONFOCUS", "ONSCAN",
     "ONSELECT"]),
   ("LI", ["TYPE", "VALUE"]),
   ("MAP", ["NAME"]),
   ("META", ["CONTENT", "HTTP-EQUIV", "NAME"]),
   ("OL", ["START", "TYPE"]),
   ("OPTION", ["VALUE", "SELECTED"]),
   ("P", ["ALIGN"]),
   ("SCRIPT", ["LANGUAGE"]),
   ("SELECT", ["MULTIPLE", "NAME", "ONCHANGE"]),
   ("TABLE", ["BORDER", "ALIGN", "BGCOLOR", "CELLPADDING", "CELLSPACING"]),
   ("TD", ["COLSPAN", "ROWSPAN", "WIDTH", "HEIGHT", "NOWRAP", "ALIGN",
     "VALIGN", "BGCOLOR", "TEXTAREA", "NAME", "DISABLED"]),
   ("TH", ["COLSPAN", "ROWSPAN", "WIDTH", "HEIGHT", "NOWRAP", "ALIGN",
     "VALIGN", "BGCOLOR", "TITLE"]),
   ("TR", ["ALIGN", "VALIGN", "BGCOLOR"]),
   ("UL", ["TYPE"])]

/-- `ALLOWED_ATTRIBUTE_VALUES` (per tag.attribute value enumeration). -/
def ALLOWED_ATTRIBUTE_VALUES : List (String × List String) :=
  [("BR.CLEAR", ["NONE", "LEFT", "RIGHT", "ALL"]),
   ("DIV.ALIGN", ["LEFT", "CENTER", "RIGHT"]),
   ("HR.ALIGN", ["LEFT", "CENTER", "RIGHT"]),
   ("IMG.ALIGN", ["LEFT", "RIGHT", "TOP", "ABSMIDDLE", "ABSBOTTOM",
     "TEXTTOP", "MIDDLE", "BASELINE", "BOTTOM"]),
   ("INPUT.TYPE", ["SUBMIT", "RESET", "IMAGE", "BUTTON", "RADIO",
     "CHECKBOX", "HIDDEN", "PASSWORD", "TEXT"]),
   ("LI.TYPE", ["1", "A", "a", "I", "i", "DISC", "CIRCLE", "SQUARE"]),
   ("OL.TYPE", ["1", "A", "a", "I", "i"]),
   ("TD.ALIGN", ["LEFT", "CENTER", "RIGHT"]),
   ("TD.VALIGN", ["TOP", "BOTTOM", "MIDDLE", "BASELINE"]),
   ("TH.ALIGN", ["LEFT", "CENTER", "RIGHT"]),
   ("TH.VALIGN", ["TOP", "BOTTOM", "MIDDLE", "BASELINE"]),
   ("TR.ALIGN", ["LEFT", "CENTER", "RIGHT"]),
   ("TR.VALIGN", ["TOP", "BOTTOM", "MIDDLE", "BASELINE"]),
   ("UL.TYPE", ["DISC", "CIRCLE", "SQUARE"]),
   ("FORM.METHOD", ["GET", "POST"]),
   ("AREA.SHAPE", ["CIRCLE", "POLY", "POLYGON", "RECT"])]

/-- Association-list lookup used for the two tables above. -/
def tableLookup (m : List (String × List String)) (k : String) :
    Option (List String) :=
  (m.find? (fun p => p.1 == k)).map Prod.snd

/-- `XiinoHTMLParser._filter_attributes`. -/
def filter_attributes (tag : String) (attrs : List (String × String)) :
    List (String × String) :=
  match tableLookup SUPPORTED_ATTRIBUTES (pyUpper tag) with
  | none => []
  | some allowed =>
    attrs.filterMap (fun p =>
      let attrName := pyUpper p.1
      if allowed.contains attrName then
        match tableLookup ALLOWED_ATTRIBUTE_VALUES
            (pyUpper tag ++ "." ++ attrName) with
        | some vals =>
          if vals.contains (pyUpper p.2) then some (attrName, p.2) else none
        | none => some (attrName, p.2)
      else none)

/-- `XiinoHTMLParser._build_tag_string`. -/
def build_tag_string (tag : String) (attrs : List (String × String)) :
    String :=
  let fa := filter_attributes tag attrs
  let base := "<" ++ pyUpper tag
  let withAttrs :=
    if fa.isEmpty then base
    else base ++ " " ++ String.intercalate " "
      (fa.map (fun p => pyUpper p.1 ++ "=\"" ++ p.2 ++ "\""))
  withAttrs ++ ">\n"

/-- `new_url.replace("https:", "http:", 1)` under the guard
`new_url.startswith("https:")`: swap the scheme prefix. -/
def httpsToHttp (u : String) : String :=
  if pyStartsWith u "https:" then "http:" ++ pyDrop u 6 else u

/-- `XiinoHTMLParser._fix_link_urls`, parametrized by the external URL
resolver (`urllib.parse.urljoin`). -/
def fix_link_urls (resolve : String → String → String) (baseUrl : String)
    (attrs : List (String × String)) : List (String × String) :=
  attrs.map (fun p =>
    if p.1 == "href" then (p.1, httpsToHttp (resolve baseUrl p.2)) else p)

/-- Split a character list at the first `://`, returning the scheme
characters before it and the characters after it. -/
def findSchemeSep : List Char → Option (List Char × List Char)
  | [] => none
  | ':' :: '/' :: '/' :: rest => some ([], rest)
  | c :: rest =>
    match findSchemeSep rest with
    | some (pre, post) => some (c :: pre, post)
    | none => none

/-- Modelled from the spec: `urllib.parse.urljoin` is Python standard
library, not repository code.  This models its behaviour for the cases
the spec exercises: an absolute `http`/`https` URL resolves to itself,
a root-relative path (leading `/`) replaces the base URL's path, and any
other reference replaces the last path segment of the base. -/
def urljoin_model (base url : String) : String :=
  if pyStartsWith url "http://" ∨ pyStartsWith url "https://" then url
  else
    match findSchemeSep base.data with
    | none => url
    | some (sch, rest) =>
      if pyStartsWith url "/" then
        String.mk sch ++ "://" ++ String.mk (rest.takeWhile (fun c => c ≠ '/')) ++ url
      else
        String.mk sch ++ "://" ++
          String.mk ((rest.reverse.dropWhile (fun c => c ≠ '/')).reverse) ++ url

/-- One character of the RFC 4648 base64 alphabet. -/
def b64char (n : Nat) : Char :=
  if n < 26 then Char.ofNat (65 + n)
  else if n < 52 then Char.ofNat (97 + (n - 26))
  else if n < 62 then Char.ofNat (48 + (n - 52))
  else if n = 62 then '+'
  else '/'

/-- `base64.b64encode` (RFC 4648, with padding, no line wrapping),
over a list of byte values. -/
def base64_encode : List Nat → String
  | [] => ""
  | [a] =>
    let n := (a % 256) <<< 16
    String.mk [b64char ((n >>> 18) % 64), b64char ((n >>> 12) % 64)] ++ "=="
  | [a, b] =>
    let n := ((a % 256) <<< 16) ||| ((b % 256) <<< 8)
    String.mk [b64char ((n >>> 18) % 64), b64char ((n >>> 12) % 64),
      b64char ((n >>> 6) % 64)] ++ "="
  | a :: b :: c :: rest =>
    let n := ((a % 256) <<< 16) ||| ((b % 256) <<< 8) ||| (c % 256)
    String.mk [b64char ((n >>> 18) % 64), b64char ((n >>> 12) % 64),
      b64char ((n >>> 6) % 64), b64char (n % 64)] ++ base64_encode rest

/-- `EBDImage` from `lib/xiino_image_converter.py`. -/
structure EBDImage where
  raw_data : List Nat
  width : Nat
  height : Nat
  mode : Nat
deriving DecidableEq

/-- `EBDImage.generate_ebdimage_tag`. -/
def generate_ebdimage_tag (img : EBDImage) (name : String) : String :=
  "<EBDIMAGE MODE=\"" ++ toString img.mode ++ "\" NAME=\"" ++ name ++
    "\"><!--" ++ base64_encode img.raw_data ++ "--></EBDIMAGE>"

/-- `EBDImage.generate_img_tag` (the caller in
`_handle_converted_image` passes no alt text, so `ALT=""`). -/
def generate_img_tag (img : EBDImage) (name : String) : String :=
  "<IMG ALT=\"\" WIDTH=\"" ++ toString img.width ++ "\" HEIGHT=\"" ++
    toString img.height ++ "\" EBDWIDTH=\"" ++ toString img.width ++
    "\" EBDHEIGHT=\"" ++ toString img.height ++ "\" EBD=\"" ++ name ++ "\">"

/-- The configuration a `XiinoHTMLParser` instance reads at
construction time: the page base URL, `HTTP_MAX_PAGE_SIZE * 1024`
(`max_size`), `IMAGE_MAX_PER_PAGE` (`MAX_IMAGES_PER_PAGE`), and the
external URL resolver. -/
structure Config where
  baseUrl : String
  maxSize : Nat
  maxImages : Nat
  resolve : String → String → String

/-- The mutable state of `XiinoHTMLParser`:
`__parsed_data_buffer`, `parsing_supported_tag`, `image_count`,
`next_ebd_ref`, `total_size` and the reserved image tasks
(source URL and reserved buffer index, in reservation order). -/
structure PState where
  buffer : List String
  parsingSupported : Bool
  imageCount : Nat
  nextEbdRef : Nat
  totalSize : Nat
  tasks : List (String × Nat)
deriving DecidableEq

/-- The parser state right after `__init__`. -/
def initState : PState :=
  { buffer := [], parsingSupported := true, imageCount := 0,
    nextEbdRef := 1, totalSize := 0, tasks := [] }

/-- `ContentTooLargeError` (the spec's `PageTooLarge`). -/
inductive PageError where
  | contentTooLarge
deriving DecidableEq

/-- `next((attr[1] for attr in attrs if attr[0].lower() == "src"), None)`. -/
def getSrc (attrs : List (String × String)) : Option String :=
  (attrs.find? (fun p => pyLower p.1 == "src")).map Prod.snd

/-- `XiinoHTMLParser._handle_img_tag`: over the per-page image limit a
literal diagnostic chunk is appended (with no size accounting); with a
source URL a placeholder chunk is reserved and the task recorded; with
none a missing-source diagnostic is appended (again unaccounted). -/
def handle_img_tag (cfg : Config) (s : PState)
    (attrs : List (String × String)) : PState :=
  match getSrc attrs with
  | some url =>
    if cfg.maxImages ≤ s.imageCount then
      { s with buffer := s.buffer ++ ["<p>[Image limit exceeded]</p>\n"] }
    else
      { s with buffer := s.buffer ++ [""],
               tasks := s.tasks ++ [(url, s.buffer.length)],
               imageCount := s.imageCount + 1 }
  | none =>
    { s with buffer := s.buffer ++ ["<p>[Missing image source]</p>\n"] }

/-- `XiinoHTMLParser._handle_regular_tag`: rewrite link URLs for `<a>`,
set the suppression flag, then append the built tag string if it fits
the budget and raise `ContentTooLargeError` otherwise. -/
def handle_regular_tag (cfg : Config) (s : PState) (tag : String)
    (attrs : List (String × String)) : Except PageError PState :=
  let attrs2 := if tag == "a" then fix_link_urls cfg.resolve cfg.baseUrl attrs
    else attrs
  let tagStr := build_tag_string tag attrs2
  let newSize := tagStr.utf8ByteSize
  if cfg.maxSize < s.totalSize + newSize then .error .contentTooLarge
  else .ok { s with parsingSupported := true,
                    totalSize := s.totalSize + newSize,
                    buffer := s.buffer ++ [tagStr] }

/-- `XiinoHTMLParser.handle_starttag`.  The tokenizer delivers tag names
lower-cased, so the `tag == "img"` comparison is against the exact
lower-case name, while the whitelist check upper-cases. -/
def handle_starttag (cfg : Config) (s : PState) (tag : String)
    (attrs : List (String × String)) : Except PageError PState :=
  if SUPPORTED_TAGS.contains (pyUpper tag) then
    if tag == "img" then .ok (handle_img_tag cfg s attrs)
    else handle_regular_tag cfg s tag attrs
  else .ok { s with parsingSupported := false }

/-- `XiinoHTMLParser.handle_data`: under suppression text is dropped;
otherwise the stripped text plus newline is appended under the size
check. -/
def handle_data (cfg : Config) (s : PState) (dataStr : String) :
    Except PageError PState :=
  if s.parsingSupported then
    let content := pyStrip dataStr
    if content == "" then .ok s
    else
      let chunk := content ++ "\n"
      let newSize := chunk.utf8ByteSize
      if cfg.maxSize < s.totalSize + newSize then .error .contentTooLarge
      else .ok { s with totalSize := s.totalSize + newSize,
                        buffer := s.buffer ++ [chunk] }
  else .ok s

/-- `XiinoHTMLParser.handle_endtag`: emit `</TAG>` for whitelisted tags
under the size check; unknown end tags emit nothing and in particular do
*not* reset the suppression flag. -/
def handle_endtag (cfg : Config) (s : PState) (tag : String) :
    Except PageError PState :=
  if SUPPORTED_TAGS.contains (pyUpper tag) then
    let chunk := "</" ++ pyUpper tag ++ ">\n"
    let newSize := chunk.utf8ByteSize
    if cfg.maxSize < s.totalSize + newSize then .error .contentTooLarge
    else .ok { s with totalSize := s.totalSize + newSize,
                      buffer := s.buffer ++ [chunk] }
  else .ok s

/-- A tokenizer callback event (Python's `html.parser.HTMLParser` with
`convert_charrefs=True` delivers exactly these three). -/
inductive TokEvent where
  | startTag (tag : String) (attrs : List (String × String))
  | endTag (tag : String)
  | textData (dataStr : String)

/-- Dispatch one tokenizer event. -/
def feedEvent (cfg : Config) (s : PState) : TokEvent → Except PageError PState
  | .startTag tag attrs => handle_starttag cfg s tag attrs
  | .endTag tag => handle_endtag cfg s tag
  | .textData d => handle_data cfg s d

/-- The synchronous tokenizer phase of `feed_async`: process the event
stream left to right, aborting on `ContentTooLargeError`. -/
def feed (cfg : Config) : PState → List TokEvent → Except PageError PState
  | s, [] => .ok s
  | s, e :: rest =>
    match feedEvent cfg s e with
    | .error err => .error err
    | .ok s2 => feed cfg s2 rest

/-- The outcome of one image task, as seen at its finalize step: either
a converted `EBDImage`, or one of the failure classes that
`parse_image` maps to a diagnostic chunk (invalid URL, timeout, content
too large, any other processing error). -/
inductive ImgOutcome where
  | success (ebd : EBDImage)
  | invalidURL
  | timedOut
  | tooLarge
  | procError
deriving DecidableEq

/-- `XiinoHTMLParser._handle_converted_image`: take the next EBD
reference (incrementing the counter first, as the source does), build
the IMG and EBDIMAGE tags, and fill the reserved slot if
`total_size + len(img_tag) + len(ebd_tag) + len(raw_data)` fits the
budget; otherwise raise `ContentTooLargeError`.  Note the size charged
includes the raw payload bytes on top of the tag strings (which already
carry the base64 payload), while the chunk stored is just the tags. -/
def handle_converted_image (cfg : Config) (s : PState) (idx : Nat)
    (ebd : EBDImage) : Except PageError PState :=
  let ref := s.nextEbdRef
  let imgTag := generate_img_tag ebd ("#" ++ toString ref) ++ "\n"
  let ebdTag := generate_ebdimage_tag ebd (toString ref) ++ "\n"
  let newSize := imgTag.utf8ByteSize + ebdTag.utf8ByteSize + ebd.raw_data.length
  if cfg.maxSize < s.totalSize + newSize then .error .contentTooLarge
  else .ok { s with nextEbdRef := ref + 1,
                    totalSize := s.totalSize + newSize,
                    buffer := s.buffer.set idx (imgTag ++ ebdTag) }

/-- `XiinoHTMLParser.parse_image`'s completion behaviour: failures fill
the slot with a diagnostic chunk (no size accounting); a successful
conversion goes through `_handle_converted_image`, whose
`ContentTooLargeError` is *caught* by `parse_image`'s
`except ContentTooLargeError` handler and turned into the
`[Image too large]` diagnostic (the reference counter was already
incremented before the raise), so no completion ever propagates the
error. -/
def parse_image_complete (cfg : Config) (s : PState) (idx : Nat) :
    ImgOutcome → PState
  | .success ebd =>
    match handle_converted_image cfg s idx ebd with
    | .ok s2 => s2
    | .error _ =>
      { s with nextEbdRef := s.nextEbdRef + 1,
               buffer := s.buffer.set idx "<p>[Image too large]</p>\n" }
  | .invalidURL =>
    { s with buffer := s.buffer.set idx "<p>[Invalid image URL]</p>\n" }
  | .timedOut =>
    { s with buffer := s.buffer.set idx "<p>[Image processing timeout]</p>\n" }
  | .tooLarge =>
    { s with buffer := s.buffer.set idx "<p>[Image too large]</p>\n" }
  | .procError =>
    { s with buffer := s.buffer.set idx "<p>[Image processing error]</p>\n" }

/-- Apply the image-task completions in the order the tasks finish. -/
def processCompletions (cfg : Config) : PState → List (Nat × ImgOutcome) → PState
  | s, [] => s
  | s, (idx, o) :: rest =>
    processCompletions cfg (parse_image_complete cfg s idx o) rest

/-- `feed_async` followed by the `asyncio.gather` join: tokenize, then
let the image tasks finalize their slots in completion order. -/
def runPage (cfg : Config) (evs : List TokEvent)
    (comps : List (Nat × ImgOutcome)) : Except PageError PState :=
  match feed cfg initState evs with
  | .error e => .error e
  | .ok s => .ok (processCompletions cfg s comps)

/-- The buffer of a finished run (`get_parsed_data` joins it); an
aborted run has no output. -/
def bufOf (r : Except PageError PState) : List String :=
  match r with
  | .ok s => s.buffer
  | .error _ => []

/-- Total output bytes: the sum of the UTF-8 byte lengths of the chunks
(`"".join(buffer).encode('utf-8')`). -/
def sumBytes (chunks : List String) : Nat :=
  (chunks.map String.utf8ByteSize).sum

/-- Whether a run finished without raising. -/
def finishedOk (r : Except PageError PState) : Bool :=
  match r with
  | .ok _ => true
  | .error _ => false

/-! ## Specification-side helpers used by the theorems -/

/-- The chunk `_handle_converted_image` stores for reference `ref`. -/
def envChunk (ebd : EBDImage) (ref : Nat) : String :=
  (generate_img_tag ebd ("#" ++ toString ref) ++ "\n") ++
    (generate_ebdimage_tag ebd (toString ref) ++ "\n")

/-- The size `_handle_converted_image` charges against the budget for
reference `ref`. -/
def envBytes (ebd : EBDImage) (ref : Nat) : Nat :=
  (generate_img_tag ebd ("#" ++ toString ref) ++ "\n").utf8ByteSize +
    (generate_ebdimage_tag ebd (toString ref) ++ "\n").utf8ByteSize +
    ebd.raw_data.length

/-- The envelope chunks for a list of images with consecutive
references starting at `ref`. -/
def envelopes (ref : Nat) : List EBDImage → List String
  | [] => []
  | e :: rest => envChunk e ref :: envelopes (ref + 1) rest

/-- An `<img src=u>` tokenizer event. -/
def imgEvent (u : String) : TokEvent :=
  .startTag "img" [("src", u)]

/-- Successful completions in document order for slots
`start, start+1, ...`. -/
def docComps (start : Nat) : List EBDImage → List (Nat × ImgOutcome)
  | [] => []
  | e :: rest => (start, .success e) :: docComps (start + 1) rest

/-- Whether an event is an `img` start tag carrying a source URL
(the case that reserves a slot). -/
def imgEventHasSrc : TokEvent → Bool
  | .startTag t attrs => if t == "img" then (getSrc attrs).isSome else true
  | .endTag _ => true
  | .textData _ => true

/-- The number of slot-reserving `img` events in a stream. -/
def countImgEvents : List TokEvent → Nat
  | [] => 0
  | .startTag t attrs :: rest =>
    (if t == "img" && (getSrc attrs).isSome then 1 else 0) + countImgEvents rest
  | _ :: rest => countImgEvents rest

/-- Whether an outcome is a successful conversion. -/
def isSuccessOutcome : ImgOutcome → Bool
  | .success _ => true
  | _ => false

/-- Whether every successful completion in the list passes the envelope
size check when the completions are applied in order from state `s`
(so no `[Image too large]` diagnostic is substituted). -/
def CompsFit (cfg : Config) : PState → List (Nat × ImgOutcome) → Bool
  | _, [] => true
  | s, (idx, o) :: rest =>
    match o with
    | .success ebd =>
      if cfg.maxSize < s.totalSize + envBytes ebd s.nextEbdRef then false
      else CompsFit cfg (parse_image_complete cfg s idx (.success ebd)) rest
    | _ => CompsFit cfg (parse_image_complete cfg s idx o) rest

/-- The task list reserved for a run of `img` events whose first slot
is `b`. -/
def taskList (b : Nat) : List String → List (String × Nat)
  | [] => []
  | u :: rest => (u, b) :: taskList (b + 1) rest

/-- A configuration with the source defaults: `HTTP_MAX_PAGE_SIZE`
512 KB, `IMAGE_MAX_PER_PAGE` 100. -/
def cfg512 : Config :=
  { baseUrl := "http://test.example.com", maxSize := 524288,
    maxImages := 100, resolve := urljoin_model }

/-- A configuration with `HTTP_MAX_PAGE_SIZE=1` (1024-byte budget), as
the repository's own page-size test uses. -/
def cfg1k : Config :=
  { baseUrl := "http://test.example.com", maxSize := 1024,
    maxImages := 100, resolve := urljoin_model }

/-- A two-level quantizer (palette `[0, 255]`, nearest by threshold,
error = value - chosen level): a concrete instance of the opaque
`find_closest_color_fn`. -/
def qThresh (v : Rat) : Nat × Rat :=
  if 128 ≤ v then (1, v - 255) else (0, v)


/-- A minimal converted image (empty payload), used as a concrete image
task result. -/
def ebd1 : EBDImage := { raw_data := [], width := 1, height := 1, mode := 9 }

/-! ## Shared lemmas -/

theorem mode9Best_eq_fast (rle lbA lbB lbC : Nat) :
    mode9Best rle lbA lbB lbC = mode9BestFast rle lbA lbB lbC := by
  have h1 : ((lbA : Rat) ≤ (rle : Rat) * (6 / 5)) ↔ 5 * lbA ≤ 6 * rle := by
    rw [show ((5 * lbA ≤ 6 * rle) ↔ ((5 * lbA : Nat) : Rat) ≤ ((6 * rle : Nat) : Rat))
      from Nat.cast_le.symm]
    push_cast
    constructor <;> intro h <;> linarith
  have h2 : ((lbB : Rat) * (11 / 10) ≤ (rle : Rat) * (6 / 5)) ↔ 11 * lbB ≤ 12 * rle := by
    rw [show ((11 * lbB ≤ 12 * rle) ↔ ((11 * lbB : Nat) : Rat) ≤ ((12 * rle : Nat) : Rat))
      from Nat.cast_le.symm]
    push_cast
    constructor <;> intro h <;> linarith
  have h3 : ((lbC : Rat) ≤ (rle : Rat) * (6 / 5)) ↔ 5 * lbC ≤ 6 * rle := by
    rw [show ((5 * lbC ≤ 6 * rle) ↔ ((5 * lbC : Nat) : Rat) ≤ ((6 * rle : Nat) : Rat))
      from Nat.cast_le.symm]
    push_cast
    constructor <;> intro h <;> linarith
  have h4 : ((lbB : Rat) * (11 / 10) ≤ (lbA : Rat)) ↔ 11 * lbB ≤ 10 * lbA := by
    rw [show ((11 * lbB ≤ 10 * lbA) ↔ ((11 * lbB : Nat) : Rat) ≤ ((10 * lbA : Nat) : Rat))
      from Nat.cast_le.symm]
    push_cast
    constructor <;> intro h <;> linarith
  have h5 : ((lbC : Rat) ≤ (lbA : Rat)) ↔ lbC ≤ lbA := Nat.cast_le
  have h6 : ((lbC : Rat) ≤ (lbB : Rat) * (11 / 10)) ↔ 10 * lbC ≤ 11 * lbB := by
    rw [show ((10 * lbC ≤ 11 * lbB) ↔ ((10 * lbC : Nat) : Rat) ≤ ((11 * lbB : Nat) : Rat))
      from Nat.cast_le.symm]
    push_cast
    constructor <;> intro h <;> linarith
  unfold mode9Best mode9BestFast
  simp only [h1, h2, h3, h4, h5, h6]

theorem compressLineGo_eq_fast (fcpi : Pixel → Nat) (line prev : List Pixel)
    (fl : Bool) : ∀ fuel index buffer,
    compressLineGo fcpi line prev fl fuel index buffer =
      compressLineGoFast fcpi line prev fl fuel index buffer := by
  intro fuel
  induction fuel with
  | zero => intro idx buf; rfl
  | succ n ih =>
    intro idx buf
    simp only [compressLineGo, compressLineGoFast, mode9Best_eq_fast, ih]

theorem mode9DitherStep_snd (fcpiE : Pixel → Err → Nat × Err) (data : List Pixel)
    (width height y : Nat) (st : List (List (Option Err)) × List Pixel) (x : Nat) :
    (mode9DitherStep fcpiE data width height y st x).2 =
      st.2 ++ [data.getD (y * width + x) pixel0] := rfl

theorem mode9_inner_snd (fcpiE : Pixel → Err → Nat × Err) (data : List Pixel)
    (width height y : Nat) : ∀ (w : Nat) (eb : List (List (Option Err))) (acc : List Pixel),
    ((List.range w).foldl (mode9DitherStep fcpiE data width height y) (eb, acc)).2 =
      acc ++ (List.range w).map (fun x => data.getD (y * width + x) pixel0) := by
  intro w
  induction w with
  | zero => intro eb acc; simp
  | succ n ih =>
    intro eb acc
    rw [List.range_succ, List.foldl_append, List.map_append]
    simp only [List.foldl_cons, List.foldl_nil, List.map_cons, List.map_nil]
    rw [mode9DitherStep_snd, ih]
    simp [List.append_assoc]

theorem getD_set_self {a : Type} (l : List a) (i : Nat) (v d : a)
    (h : i < l.length) : (l.set i v).getD i d = v := by
  induction l generalizing i with
  | nil => simp at h
  | cons x xs ih =>
    cases i with
    | zero => rfl
    | succ n => simpa using ih n (by simpa using h)

theorem getD_set_ne {a : Type} (l : List a) (i j : Nat) (v d : a)
    (h : i ≠ j) : (l.set i v).getD j d = l.getD j d := by
  induction l generalizing i j with
  | nil => simp
  | cons x xs ih =>
    cases i with
    | zero =>
      cases j with
      | zero => exact absurd rfl h
      | succ m => rfl
    | succ n =>
      cases j with
      | zero => rfl
      | succ m => simpa using ih n m (by omega)

theorem fsAux_out (q : Rat → Nat × Rat) (data : List (List Rat)) (w : Nat) :
    ∀ (fuel y : Nat) (eb : List (List Rat)), data.length ≤ y →
    fsAux q data data.length w fuel y eb = [] := by
  intro fuel y eb h
  cases fuel with
  | zero => rfl
  | succ n => simp [fsAux, Nat.not_lt.mpr h]

theorem fsAux_eq_noEast (q : Rat → Nat × Rat) (data : List (List Rat)) (w : Nat) :
    ∀ (fuel y : Nat) (errBuf : List (List Rat)) (carry : List Rat),
    data.length ≤ y + fuel →
    errBuf.length = data.length →
    errBuf.getD y [] = carry →
    (∀ z, y < z → z < errBuf.length → errBuf.getD z [] = zeroVec w) →
    fsAux q data data.length w fuel y errBuf =
      fsNoEastGo q w (data.drop y) carry := by
  intro fuel
  induction fuel with
  | zero =>
    intro y errBuf carry hfuel _ _ _
    have hy : data.length ≤ y := by omega
    rw [List.drop_eq_nil_of_le hy]
    rfl
  | succ n ih =>
    intro y errBuf carry hfuel hlen hcar hzero
    by_cases hy : y < data.length
    · have hdrop : data.drop y = data[y] :: data.drop (y + 1) :=
        List.drop_eq_getElem_cons hy
      have hrow : data.getD y [] = data[y] := List.getD_eq_getElem data [] hy
      rw [hdrop]
      show fsAux q data data.length w (n + 1) y errBuf = _
      rw [fsAux]
      simp only [if_pos hy]
      rw [hrow, hcar]
      by_cases hlast : y < data.length - 1
      · simp only [if_pos hlast]
        rw [fsNoEastGo]
        congr 1
        have hy1 : y + 1 < errBuf.length := by omega
        have hz1 : errBuf.getD (y + 1) [] = zeroVec w := hzero (y + 1) (by omega) hy1
        rw [hz1]
        apply ih
        · omega
        · simpa using hlen
        · rw [getD_set_self]
          simpa using hy1
        · intro z hz hzlen
          rw [getD_set_ne _ _ _ _ _ (by omega), getD_set_ne _ _ _ _ _ (by omega)]
          exact hzero z (by omega) (by simpa using hzlen)
      · simp only [if_neg hlast]
        rw [fsNoEastGo]
        congr 1
        have hnil : data.drop (y + 1) = [] := List.drop_eq_nil_of_le (by omega)
        rw [hnil]
        rw [fsAux_out q data w n (y + 1) errBuf (by omega)]
        rfl
    · rw [List.drop_eq_nil_of_le (by omega)]
      show fsAux q data data.length w (n + 1) y errBuf = _
      rw [fsAux]
      simp only [if_neg hy]
      rfl

theorem apply_fsd_eq_noEast (data : List (List Rat)) (q : Rat → Nat × Rat)
    (hrect : ∀ r ∈ data, r.length = (data.headD []).length) :
    apply_floyd_steinberg_dithering data q = fsNoEast data q := by
  unfold apply_floyd_steinberg_dithering fsNoEast
  have h1 : (data.map (fun r => r.map (fun _ => (0 : Rat)))).length = data.length := by
    simp
  have h2 : (data.map (fun r => r.map (fun _ => (0 : Rat)))).getD 0 [] =
      zeroVec (data.headD []).length := by
    cases data with
    | nil => rfl
    | cons r rest => simp [zeroVec, List.map_const']
  have h3 : ∀ z, 0 < z → z < (data.map (fun r => r.map (fun _ => (0 : Rat)))).length →
      (data.map (fun r => r.map (fun _ => (0 : Rat)))).getD z [] =
        zeroVec (data.headD []).length := by
    intro z _ hlen
    have hz : z < data.length := by simpa using hlen
    rw [List.getD_eq_getElem _ [] (by simpa using hlen)]
    simp only [List.getElem_map]
    rw [List.map_const']
    rw [hrect data[z] (List.getElem_mem hz)]
    rfl
  have hmain := fsAux_eq_noEast q data (data.headD []).length data.length 0
    (data.map (fun r => r.map (fun _ => (0 : Rat))))
    (zeroVec (data.headD []).length) (by omega) h1 h2 h3
  rw [List.drop_zero] at hmain
  exact hmain

theorem fsWeights (qErr : List Rat) (j wdt : Nat)
    (hj : j + 1 < qErr.length) (hw : 1 < wdt) :
    (eastVec qErr).getD (j + 1) 0 = qErr.getD j 0 * (7 / 16) ∧
    (swVec qErr).getD j 0 = qErr.getD (j + 1) 0 * (3 / 16) ∧
    (sVec qErr).getD j 0 = qErr.getD j 0 * (5 / 16) ∧
    (seVec wdt qErr).getD (j + 1) 0 = qErr.getD j 0 * (1 / 16) := by
  have hdl : j < qErr.dropLast.length := by
    rw [List.length_dropLast]
    omega
  have hj0 : j < qErr.length := by omega
  refine ⟨?_, ?_, ?_, ?_⟩
  · show (qErr.dropLast.map (fun e => e * (7 / 16))).getD j 0 = _
    rw [List.getD_eq_getElem _ _ (by simpa using hdl)]
    simp only [List.getElem_map, List.getElem_dropLast]
    rw [List.getD_eq_getElem _ _ hj0]
  · unfold swVec
    rw [List.getD_append _ _ _ _ (by rw [List.length_map, List.length_drop]; omega)]
    rw [List.getD_eq_getElem _ _ (by rw [List.length_map, List.length_drop]; omega)]
    simp only [List.getElem_map, List.getElem_drop]
    rw [List.getD_eq_getElem _ _ hj]
    have hix : 1 + j = j + 1 := Nat.add_comm 1 j
    simp only [hix]
  · unfold sVec
    rw [List.getD_eq_getElem _ _ (by rw [List.length_map]; omega)]
    simp only [List.getElem_map]
    rw [List.getD_eq_getElem _ _ hj0]
  · unfold seVec
    rw [if_pos hw]
    show (qErr.dropLast.map (fun e => e * (1 / 16))).getD j 0 = _
    rw [List.getD_eq_getElem _ _ (by simpa using hdl)]
    simp only [List.getElem_map, List.getElem_dropLast]
    rw [List.getD_eq_getElem _ _ hj0]

theorem mode9_no_dither_eq (fcpiE : Pixel → Err → Nat × Err) (fcpi : Pixel → Nat)
    (width height : Nat) (data : List Pixel) :
    compress_mode9 fcpiE fcpi width height data =
      compress_mode9_no_dither fcpi width height data := by
  unfold compress_mode9 compress_mode9_no_dither
  have houter : ∀ (h : Nat) (eb : List (List (Option Err))) (acc : List (List Pixel)),
      ((List.range h).foldl (fun st y =>
        let rowStep := (List.range width).foldl
          (mode9DitherStep fcpiE data width height y) (st.1, [])
        (rowStep.1, st.2 ++ [rowStep.2])) (eb, acc)).2 =
      acc ++ (List.range h).map
        (fun y => (List.range width).map (fun x => data.getD (y * width + x) pixel0)) := by
    intro h
    induction h with
    | zero => intro eb acc; simp
    | succ n ih =>
      intro eb acc
      rw [List.range_succ, List.foldl_append, List.map_append]
      simp only [List.foldl_cons, List.foldl_nil, List.map_cons, List.map_nil]
      rw [ih]
      simp only [mode9_inner_snd, List.nil_append]
      simp [List.append_assoc]
  simp only [houter, List.nil_append]


theorem utf8_append (a b : String) :
    (a ++ b).utf8ByteSize = a.utf8ByteSize + b.utf8ByteSize := by
  simp [String.utf8ByteSize, String.append]

theorem sumBytes_append (l : List String) (c : String) :
    sumBytes (l ++ [c]) = sumBytes l + c.utf8ByteSize := by
  simp [sumBytes]

theorem set_append_len {a : Type} (pre : List a) (x v : a) (tail : List a) :
    (pre ++ x :: tail).set pre.length v = pre ++ v :: tail := by
  induction pre with
  | nil => rfl
  | cons h rest ih => simp [ih]

theorem sumBytes_set (l : List String) (i : Nat) (v : String) (h : i < l.length) :
    sumBytes (l.set i v) + (l.getD i "").utf8ByteSize = sumBytes l + v.utf8ByteSize := by
  induction l generalizing i with
  | nil => simp at h
  | cons x rest ih =>
    cases i with
    | zero => simp [sumBytes]; omega
    | succ n =>
      have hn : n < rest.length := by simpa using h
      have := ih n hn
      simp only [List.set, sumBytes, List.map_cons, List.sum_cons, List.getD_cons_succ] at *
      omega

theorem getSrc_single (u : String) : getSrc [("src", u)] = some u := by
  simp [getSrc, List.find?, show (pyLower "src" == "src") = true from by decide]

theorem feedEvent_img (cfg : Config) (s : PState) (u : String)
    (h : s.imageCount < cfg.maxImages) :
    feedEvent cfg s (imgEvent u) = .ok
      { s with buffer := s.buffer ++ [""],
               tasks := s.tasks ++ [(u, s.buffer.length)],
               imageCount := s.imageCount + 1 } := by
  simp only [imgEvent, feedEvent, handle_starttag, handle_img_tag, getSrc_single,
    show SUPPORTED_TAGS.contains (pyUpper "img") = true from by decide,
    show ("img" == "img") = true from by decide]
  simp [Nat.not_le.mpr h]

theorem feed_imgEvents (cfg : Config) : ∀ (urls : List String) (s : PState),
    s.imageCount + urls.length ≤ cfg.maxImages →
    feed cfg s (urls.map imgEvent) = .ok
      { s with buffer := s.buffer ++ List.replicate urls.length "",
               tasks := s.tasks ++ taskList s.buffer.length urls,
               imageCount := s.imageCount + urls.length } := by
  intro urls
  induction urls with
  | nil => intro s hs; simp [feed, taskList]
  | cons u rest ih =>
    intro s hs
    have hlt : s.imageCount < cfg.maxImages := by
      simp at hs
      omega
    simp only [List.map_cons, feed, feedEvent_img cfg s u hlt]
    rw [ih]
    · simp [taskList, List.replicate_succ, List.append_assoc]
      omega
    · simp at hs ⊢
      omega


theorem parse_image_success (cfg : Config) (s : PState) (idx : Nat) (e : EBDImage)
    (h : ¬ (cfg.maxSize < s.totalSize + envBytes e s.nextEbdRef)) :
    parse_image_complete cfg s idx (.success e) =
      { s with nextEbdRef := s.nextEbdRef + 1,
               totalSize := s.totalSize + envBytes e s.nextEbdRef,
               buffer := s.buffer.set idx (envChunk e s.nextEbdRef) } := by
  simp only [envBytes] at h
  simp only [parse_image_complete, handle_converted_image, if_neg h]
  simp [envBytes, envChunk]

theorem compsFit_cons_success (cfg : Config) (s : PState) (idx : Nat)
    (e : EBDImage) (rest : List (Nat × ImgOutcome)) :
    CompsFit cfg s ((idx, .success e) :: rest) = true ↔
      ¬ (cfg.maxSize < s.totalSize + envBytes e s.nextEbdRef) ∧
        CompsFit cfg (parse_image_complete cfg s idx (.success e)) rest = true := by
  by_cases h : cfg.maxSize < s.totalSize + envBytes e s.nextEbdRef
  · simp [CompsFit, h]
  · simp [CompsFit, h]

theorem procComps_doc (cfg : Config) : ∀ (es : List EBDImage) (pre : List String) (s : PState),
    s.buffer = pre ++ List.replicate es.length "" →
    CompsFit cfg s (docComps pre.length es) = true →
    (processCompletions cfg s (docComps pre.length es)).buffer =
      pre ++ envelopes s.nextEbdRef es := by
  intro es
  induction es with
  | nil =>
    intro pre s hbuf _
    simp only [docComps, processCompletions, envelopes]
    simpa using hbuf
  | cons e rest ih =>
    intro pre s hbuf hfit
    rw [docComps] at hfit ⊢
    rw [processCompletions]
    rcases (compsFit_cons_success cfg s pre.length e (docComps (pre.length + 1) rest)).mp
      hfit with ⟨hle, hfit2⟩
    rw [parse_image_success cfg s pre.length e hle] at hfit2 ⊢
    have hset : s.buffer.set pre.length (envChunk e s.nextEbdRef) =
        (pre ++ [envChunk e s.nextEbdRef]) ++ List.replicate rest.length "" := by
      rw [hbuf]
      simp only [List.length_cons, List.replicate_succ]
      rw [set_append_len]
      simp
    have hlen2 : (pre ++ [envChunk e s.nextEbdRef]).length = pre.length + 1 := by
      simp
    have := ih (pre ++ [envChunk e s.nextEbdRef])
      { s with nextEbdRef := s.nextEbdRef + 1,
               totalSize := s.totalSize + envBytes e s.nextEbdRef,
               buffer := s.buffer.set pre.length (envChunk e s.nextEbdRef) }
      (by simp [hset]) (by rw [hlen2]; exact hfit2)
    rw [hlen2] at this
    rw [this]
    simp [envelopes]

theorem names_follow_doc_completions (cfg : Config) (urls : List String)
    (es : List EBDImage) (hlen : es.length = urls.length)
    (hcnt : urls.length ≤ cfg.maxImages)
    (hfit : CompsFit cfg
      { initState with
        buffer := List.replicate urls.length ""
        tasks := taskList 0 urls
        imageCount := urls.length }
      (docComps 0 es) = true) :
    bufOf (runPage cfg (urls.map imgEvent) (docComps 0 es)) = envelopes 1 es := by
  have hfeed := feed_imgEvents cfg urls initState (by simpa [initState] using hcnt)
  have hstate : ({ initState with
      buffer := initState.buffer ++ List.replicate urls.length ""
      tasks := initState.tasks ++ taskList initState.buffer.length urls
      imageCount := initState.imageCount + urls.length } : PState) =
    { initState with
      buffer := List.replicate urls.length ""
      tasks := taskList 0 urls
      imageCount := urls.length } := by
    simp [initState]
  rw [hstate] at hfeed
  have hrun : runPage cfg (urls.map imgEvent) (docComps 0 es) =
      .ok (processCompletions cfg
        { initState with
          buffer := List.replicate urls.length ""
          tasks := taskList 0 urls
          imageCount := urls.length }
        (docComps 0 es)) := by
    unfold runPage
    rw [hfeed]
  rw [hrun]
  simp only [bufOf]
  have hmain := procComps_doc cfg es []
    { initState with
      buffer := List.replicate urls.length ""
      tasks := taskList 0 urls
      imageCount := urls.length }
    (by simp [hlen]) (by simpa using hfit)
  simpa [initState] using hmain


theorem getD_append_len {a : Type} (l : List a) (x : a) (t : List a) (d : a) :
    (l ++ x :: t).getD l.length d = x := by
  induction l with
  | nil => rfl
  | cons h rest ih => simpa using ih

theorem utf8_empty : ("" : String).utf8ByteSize = 0 := rfl

theorem envChunk_le_envBytes (e : EBDImage) (ref : Nat) :
    (envChunk e ref).utf8ByteSize ≤ envBytes e ref := by
  unfold envChunk envBytes
  rw [utf8_append]
  omega

theorem slots_append (s : PState) (chunk : String)
    (h3 : ∀ p ∈ s.tasks, p.2 < s.buffer.length ∧ s.buffer.getD p.2 "" = "") :
    ∀ p ∈ s.tasks, p.2 < (s.buffer ++ [chunk]).length ∧
      (s.buffer ++ [chunk]).getD p.2 "" = "" := by
  intro p hp
  rcases h3 p hp with ⟨ha, hb⟩
  refine ⟨by simp; omega, ?_⟩
  rw [List.getD_append _ _ _ _ ha]
  exact hb

theorem handle_regular_shape (cfg : Config) (s : PState) (tag : String)
    (attrs : List (String × String)) (s2 : PState)
    (hok : handle_regular_tag cfg s tag attrs = .ok s2) :
    ∃ chunk : String, s.totalSize + chunk.utf8ByteSize ≤ cfg.maxSize ∧
      s2 = { s with parsingSupported := true
                    totalSize := s.totalSize + chunk.utf8ByteSize
                    buffer := s.buffer ++ [chunk] } := by
  simp only [handle_regular_tag] at hok
  split at hok
  all_goals split at hok
  all_goals try exact Except.noConfusion hok
  all_goals
    rename_i hguard
    rw [Nat.not_lt] at hguard
    exact ⟨_, hguard, (Except.ok.inj hok).symm⟩

theorem feedEvent_budget (cfg : Config) (s s2 : PState) (e : TokEvent)
    (hsrc : imgEventHasSrc e = true)
    (hcnt : s.imageCount + countImgEvents [e] ≤ cfg.maxImages)
    (hok : feedEvent cfg s e = .ok s2)
    (h1 : sumBytes s.buffer = s.totalSize)
    (h2 : s.totalSize ≤ cfg.maxSize)
    (h3 : ∀ p ∈ s.tasks, p.2 < s.buffer.length ∧ s.buffer.getD p.2 "" = "") :
    sumBytes s2.buffer = s2.totalSize ∧ s2.totalSize ≤ cfg.maxSize ∧
      (∀ p ∈ s2.tasks, p.2 < s2.buffer.length ∧ s2.buffer.getD p.2 "" = "") ∧
      s2.imageCount ≤ s.imageCount + countImgEvents [e] := by
  cases e with
  | startTag tag attrs =>
    simp only [feedEvent, handle_starttag] at hok
    by_cases hsup : SUPPORTED_TAGS.contains (pyUpper tag) = true
    · rw [if_pos hsup] at hok
      by_cases himg : (tag == "img") = true
      · rw [if_pos himg] at hok
        simp only [imgEventHasSrc, himg, if_pos] at hsrc
        cases hget : getSrc attrs with
        | none => rw [hget] at hsrc; simp at hsrc
        | some u =>
          have hcnt2 : s.imageCount + 1 ≤ cfg.maxImages := by
            simp only [countImgEvents, himg, hget] at hcnt
            simpa using hcnt
          simp only [handle_img_tag, hget] at hok
          have hlt : ¬ (cfg.maxImages ≤ s.imageCount) := by omega
          rw [if_neg hlt] at hok
          rcases Except.ok.inj hok with rfl
          refine ⟨?_, h2, ?_, ?_⟩
          · show sumBytes (s.buffer ++ [""]) = s.totalSize
            rw [sumBytes_append, h1, utf8_empty]
            omega
          · intro p hp
            simp only [List.mem_append, List.mem_singleton] at hp
            rcases hp with hp | hp
            · exact slots_append s "" h3 p hp
            · subst hp
              refine ⟨by simp, ?_⟩
              have hx := getD_append_len s.buffer "" [] ""
              simp only [List.append_nil] at hx
              exact hx
          · show s.imageCount + 1 ≤ s.imageCount + countImgEvents [TokEvent.startTag tag attrs]
            simp [countImgEvents, himg, hget]
      · rw [if_neg himg] at hok
        rcases handle_regular_shape cfg s tag attrs s2 hok with ⟨chunk, hle, rfl⟩
        refine ⟨?_, hle, slots_append s chunk h3, ?_⟩
        · show sumBytes (s.buffer ++ [chunk]) = s.totalSize + chunk.utf8ByteSize
          rw [sumBytes_append, h1]
        · show s.imageCount ≤ s.imageCount + countImgEvents [TokEvent.startTag tag attrs]
          omega
    · rw [if_neg hsup] at hok
      rcases Except.ok.inj hok with rfl
      exact ⟨h1, h2, h3, Nat.le_add_right _ _⟩
  | endTag tag =>
    simp only [feedEvent, handle_endtag] at hok
    by_cases hsup : SUPPORTED_TAGS.contains (pyUpper tag) = true
    · rw [if_pos hsup] at hok
      split at hok
      · exact Except.noConfusion hok
      next hguard =>
        rcases Except.ok.inj hok with rfl
        rw [Nat.not_lt] at hguard
        refine ⟨?_, hguard, slots_append s _ h3, ?_⟩
        · show sumBytes (s.buffer ++ [_]) = s.totalSize + _
          rw [sumBytes_append, h1]
        · show s.imageCount ≤ s.imageCount + countImgEvents [TokEvent.endTag tag]
          omega
    · rw [if_neg hsup] at hok
      rcases Except.ok.inj hok with rfl
      exact ⟨h1, h2, h3, Nat.le_add_right _ _⟩
  | textData d =>
    simp only [feedEvent, handle_data] at hok
    by_cases hflag : s.parsingSupported = true
    · rw [if_pos hflag] at hok
      by_cases hempty : (pyStrip d == "") = true
      · rw [if_pos hempty] at hok
        rcases Except.ok.inj hok with rfl
        exact ⟨h1, h2, h3, Nat.le_add_right _ _⟩
      · rw [if_neg hempty] at hok
        split at hok
        · exact Except.noConfusion hok
        next hguard =>
          rcases Except.ok.inj hok with rfl
          rw [Nat.not_lt] at hguard
          refine ⟨?_, hguard, slots_append s _ h3, ?_⟩
          · show sumBytes (s.buffer ++ [_]) = s.totalSize + _
            rw [sumBytes_append, h1]
          · show s.imageCount ≤ s.imageCount + countImgEvents [TokEvent.textData d]
            omega
    · rw [if_neg hflag] at hok
      rcases Except.ok.inj hok with rfl
      exact ⟨h1, h2, h3, Nat.le_add_right _ _⟩


theorem feed_budget (cfg : Config) : ∀ (evs : List TokEvent) (s sf : PState),
    (∀ e ∈ evs, imgEventHasSrc e = true) →
    s.imageCount + countImgEvents evs ≤ cfg.maxImages →
    feed cfg s evs = .ok sf →
    sumBytes s.buffer = s.totalSize →
    s.totalSize ≤ cfg.maxSize →
    (∀ p ∈ s.tasks, p.2 < s.buffer.length ∧ s.buffer.getD p.2 "" = "") →
    sumBytes sf.buffer = sf.totalSize ∧ sf.totalSize ≤ cfg.maxSize ∧
      (∀ p ∈ sf.tasks, p.2 < sf.buffer.length ∧ sf.buffer.getD p.2 "" = "") := by
  intro evs
  induction evs with
  | nil =>
    intro s sf _ _ hfeed h1 h2 h3
    rcases Except.ok.inj hfeed with rfl
    exact ⟨h1, h2, h3⟩
  | cons e rest ih =>
    intro s sf hsrc hcnt hfeed h1 h2 h3
    rw [feed] at hfeed
    cases hstep : feedEvent cfg s e with
    | error err => rw [hstep] at hfeed; exact Except.noConfusion hfeed
    | ok s2 =>
      rw [hstep] at hfeed
      have hcnt1 : s.imageCount + countImgEvents [e] ≤ cfg.maxImages := by
        have : countImgEvents (e :: rest) = countImgEvents [e] + countImgEvents rest := by
          cases e <;> simp [countImgEvents]
        omega
      rcases feedEvent_budget cfg s s2 e (hsrc e (by simp)) hcnt1 hstep h1 h2 h3 with
        ⟨g1, g2, g3, g4⟩
      refine ih s2 sf (fun x hx => hsrc x (by simp [hx])) ?_ hfeed g1 g2 g3
      have hsplit : countImgEvents (e :: rest) = countImgEvents [e] + countImgEvents rest := by
        cases e <;> simp [countImgEvents]
      omega

theorem comps_budget (cfg : Config) : ∀ (comps : List (Nat × ImgOutcome)) (s : PState),
    sumBytes s.buffer ≤ s.totalSize →
    s.totalSize ≤ cfg.maxSize →
    (∀ c ∈ comps, isSuccessOutcome c.2 = true) →
    (∀ c ∈ comps, c.1 < s.buffer.length ∧ s.buffer.getD c.1 "" = "") →
    (comps.map Prod.fst).Nodup →
    CompsFit cfg s comps = true →
    sumBytes (processCompletions cfg s comps).buffer ≤ cfg.maxSize := by
  intro comps
  induction comps with
  | nil =>
    intro s h1 h2 _ _ _ _
    exact le_trans h1 h2
  | cons c rest ih =>
    intro s h1 h2 hsucc hslots hnodup hfit
    rcases c with ⟨idx, o⟩
    cases o with
    | invalidURL => exact absurd (hsucc (idx, .invalidURL) (by simp)) (by simp [isSuccessOutcome])
    | timedOut => exact absurd (hsucc (idx, .timedOut) (by simp)) (by simp [isSuccessOutcome])
    | tooLarge => exact absurd (hsucc (idx, .tooLarge) (by simp)) (by simp [isSuccessOutcome])
    | procError => exact absurd (hsucc (idx, .procError) (by simp)) (by simp [isSuccessOutcome])
    | success e =>
      rcases (compsFit_cons_success cfg s idx e rest).mp hfit with ⟨hle, hfit2⟩
      rw [processCompletions]
      rw [parse_image_success cfg s idx e hle] at hfit2 ⊢
      rcases hslots (idx, .success e) (by simp) with ⟨hidx, hold⟩
      have hsum := sumBytes_set s.buffer idx (envChunk e s.nextEbdRef) hidx
      rw [hold, utf8_empty] at hsum
      apply ih
      · show sumBytes (s.buffer.set idx (envChunk e s.nextEbdRef)) ≤
          s.totalSize + envBytes e s.nextEbdRef
        have := envChunk_le_envBytes e s.nextEbdRef
        omega
      · show s.totalSize + envBytes e s.nextEbdRef ≤ cfg.maxSize
        omega
      · intro x hx
        exact hsucc x (by simp [hx])
      · intro x hx
        rcases hslots x (by simp [hx]) with ⟨hxa, hxb⟩
        have hne : idx ≠ x.1 := by
          simp only [List.map_cons, List.nodup_cons] at hnodup
          intro hcontra
          exact hnodup.1 (hcontra ▸ List.mem_map_of_mem Prod.fst hx)
        constructor
        · show x.1 < (s.buffer.set idx (envChunk e s.nextEbdRef)).length
          simpa using hxa
        · show (s.buffer.set idx (envChunk e s.nextEbdRef)).getD x.1 "" = ""
          rw [getD_set_ne _ _ _ _ _ hne]
          exact hxb
      · simp only [List.map_cons, List.nodup_cons] at hnodup
        exact hnodup.2
      · exact hfit2

theorem budget_without_diagnostics (cfg : Config) (evs : List TokEvent)
    (comps : List (Nat × ImgOutcome)) (sf : PState)
    (himg : ∀ e ∈ evs, imgEventHasSrc e = true)
    (hcnt : countImgEvents evs ≤ cfg.maxImages)
    (hfeed : feed cfg initState evs = .ok sf)
    (hsucc : ∀ c ∈ comps, isSuccessOutcome c.2 = true)
    (hslots : ∀ c ∈ comps, c.1 ∈ sf.tasks.map Prod.snd)
    (hnodup : (comps.map Prod.fst).Nodup)
    (hfit : CompsFit cfg sf comps = true) :
    sumBytes sf.buffer = sf.totalSize ∧ sf.totalSize ≤ cfg.maxSize ∧
      sumBytes (processCompletions cfg sf comps).buffer ≤ cfg.maxSize := by
  rcases feed_budget cfg evs initState sf himg (by simpa [initState] using hcnt) hfeed
    (by simp [initState, sumBytes]) (by simp [initState]) (by simp [initState]) with
    ⟨g1, g2, g3⟩
  refine ⟨g1, g2, comps_budget cfg comps sf (le_of_eq g1) g2 hsucc ?_ hnodup hfit⟩
  intro c hc
  rcases List.mem_map.mp (hslots c hc) with ⟨p, hp, hpe⟩
  rcases g3 p hp with ⟨ha, hb⟩
  rw [← hpe]
  exact ⟨ha, hb⟩


theorem unknown_tag_suppression (cfg : Config) (s : PState) (tag tag2 dataStr : String)
    (attrs attrs2 : List (String × String))
    (hunk : SUPPORTED_TAGS.contains (pyUpper tag) = false)
    (hsup : SUPPORTED_TAGS.contains (pyUpper tag2) = true)
    (himg : (tag2 == "img") = false)
    (hfit : s.totalSize + (build_tag_string tag2 (if (tag2 == "a") = true then
      fix_link_urls cfg.resolve cfg.baseUrl attrs2 else attrs2)).utf8ByteSize ≤ cfg.maxSize) :
    handle_starttag cfg s tag attrs = .ok { s with parsingSupported := false } ∧
    handle_data cfg { s with parsingSupported := false } dataStr =
      .ok { s with parsingSupported := false } ∧
    handle_endtag cfg { s with parsingSupported := false } tag =
      .ok { s with parsingSupported := false } ∧
    handle_starttag cfg { s with parsingSupported := false } tag2 attrs2 =
      .ok { s with parsingSupported := true
                   totalSize := s.totalSize + (build_tag_string tag2
                     (if (tag2 == "a") = true then
                       fix_link_urls cfg.resolve cfg.baseUrl attrs2 else attrs2)).utf8ByteSize
                   buffer := s.buffer ++ [build_tag_string tag2
                     (if (tag2 == "a") = true then
                       fix_link_urls cfg.resolve cfg.baseUrl attrs2 else attrs2)] } := by
  have hunk2 : pyUpper tag ∉ SUPPORTED_TAGS := by simpa using hunk
  refine ⟨?_, ?_, ?_, ?_⟩
  · simp [handle_starttag, hunk2]
  · simp [handle_data]
  · simp [handle_endtag, hunk2]
  · simp only [handle_starttag, hsup, if_pos, himg, Bool.false_eq_true, if_neg,
      if_false, handle_regular_tag]
    rw [if_neg (by simpa using Nat.not_lt.mpr hfit)]


/-! ## Claim theorems -/

/-- C1: the spec says a 1-row, 10-wide image whose pixels all quantize to
palette index 5 encodes as the literal byte `0x05`, the control code
`RLE_6` and the length byte `3` (computed as `10 - 1 - 6`), consuming all
10 pixels.  The coder actually counts the run *including* the current
pixel (`rle_length = 10`), emits length byte `10 - 6 = 4`, and advances
`rle_length + 1 = 11` positions.  The second conjunct shows the
consequence on an interior run: five equal pixels followed by one
different pixel encode as literal plus `RLE_5` alone - the sixth pixel is
skipped and never encoded. -/
theorem c1_mode9_rle_counts_current_pixel :
    compress_line (fun _ => 5) (List.replicate 10 pixel0) [] true =
      [5, CONTROL_CODES "RLE_6", 4] ∧
    CONTROL_CODES "RLE_6" = 236 ∧
    compress_line (fun _ => 5)
      (List.replicate 5 pixel0 ++ [((9 : Int), (9 : Int), (9 : Int))]) [] true =
      [5, CONTROL_CODES "RLE_5"] := by
  refine ⟨?_, by decide, ?_⟩
  · rw [compress_line, compressLineGo_eq_fast]
    decide
  · rw [compress_line, compressLineGo_eq_fast]
    decide

/-- C2: the spec says scanline encoding emits every 8-byte chunk of every
row (mask then bytes) and round-trips for any `width_bytes ≥ 1`.  The
chunk loop `range(0, len(line) - 8, 8)` skips the final full chunk
whenever the row length is a multiple of 8: an 8-byte row compresses to
the *empty* stream, so two different 8-byte inputs share the output and
no decoder can reproduce the input.  The last conjunct shows a 6-byte
row (not a multiple of 8) is emitted correctly via the remainder path. -/
theorem c2_scanline_drops_final_chunk :
    compress_data_with_scanline (List.replicate 8 7) 8 = .ok [] ∧
    compress_data_with_scanline (List.replicate 8 9) 8 = .ok [] ∧
    (List.replicate 8 7 : List Nat) ≠ List.replicate 8 9 ∧
    compress_data_with_scanline (List.replicate 6 7) 6 =
      .ok [0xFC, 7, 7, 7, 7, 7, 7] := by
  refine ⟨by decide, by decide, by decide, by decide⟩

/-- C3 counterexample: 35 `img` start tags without a `src` attribute make
the composer append 35 copies of the 30-byte `[Missing image source]`
diagnostic with no size accounting, so with the 1024-byte budget the run
finishes without raising and outputs 1050 bytes, refuting the claim that
output can never exceed `max_page_size`. -/
theorem c3_budget_counterexample :
    finishedOk (runPage cfg1k (List.replicate 35 (.startTag "img" [])) []) = true ∧
    sumBytes (bufOf (runPage cfg1k (List.replicate 35 (.startTag "img" [])) [])) = 1050 ∧
    cfg1k.maxSize = 1024 := by
  refine ⟨by decide, by decide, by decide⟩

/-- C3 (amended): when every `img` event carries a source URL, the image
count stays within the per-page limit, every completion is a successful
conversion, completions target distinct reserved slots, and every
envelope passes its size check, the feed phase keeps `total_size` equal
to the summed chunk bytes and within `max_size`, and the completed page
never exceeds `max_size` (envelopes are charged tag bytes plus raw
payload bytes, an over-count); the diagnostic-substitution paths are
exactly what the counterexample exploits. -/
theorem c3_budget_amended (cfg : Config) (evs : List TokEvent)
    (comps : List (Nat × ImgOutcome)) (sf : PState)
    (himg : ∀ e ∈ evs, imgEventHasSrc e = true)
    (hcnt : countImgEvents evs ≤ cfg.maxImages)
    (hfeed : feed cfg initState evs = .ok sf)
    (hsucc : ∀ c ∈ comps, isSuccessOutcome c.2 = true)
    (hslots : ∀ c ∈ comps, c.1 ∈ sf.tasks.map Prod.snd)
    (hnodup : (comps.map Prod.fst).Nodup)
    (hfit : CompsFit cfg sf comps = true) :
    sumBytes sf.buffer = sf.totalSize ∧ sf.totalSize ≤ cfg.maxSize ∧
      sumBytes (processCompletions cfg sf comps).buffer ≤ cfg.maxSize :=
  budget_without_diagnostics cfg evs comps sf himg hcnt hfeed hsucc hslots hnodup hfit

/-- C3 witness: the amended theorem applied to one image page with a
successful empty-payload conversion. -/
theorem c3_budget_amended_witness :
    feed cfg512 initState [imgEvent "/a.png"] = .ok
      { buffer := [""]
        parsingSupported := true
        imageCount := 1
        nextEbdRef := 1
        totalSize := 0
        tasks := [("/a.png", 0)] } ∧
    sumBytes (processCompletions cfg512
      { buffer := [""]
        parsingSupported := true
        imageCount := 1
        nextEbdRef := 1
        totalSize := 0
        tasks := [("/a.png", 0)] } [(0, ImgOutcome.success ebd1)]).buffer ≤ cfg512.maxSize :=
  ⟨by decide,
    (c3_budget_amended cfg512 [imgEvent "/a.png"] [(0, ImgOutcome.success ebd1)]
      { buffer := [""]
        parsingSupported := true
        imageCount := 1
        nextEbdRef := 1
        totalSize := 0
        tasks := [("/a.png", 0)] }
      (by decide) (by decide) (by decide) (by decide) (by decide) (by decide)
      (by decide)).2.2⟩


/-- C4 counterexample: on the 1x2 image `[[100, 100]]` with the two-level
quantizer, pixel (0,0) leaves residual 100, and had 7/16 of it been
applied to the east neighbour as the claim asserts, that neighbour would
quantize to index 1; the code quantizes the whole row in one vectorized
call before distributing anything (and distributes nothing at all on the
last row), so both indices come out 0. -/
theorem c4_east_counterexample :
    apply_floyd_steinberg_dithering [[100, 100]] qThresh = [[0, 0]] ∧
    qThresh 100 = (0, 100) ∧
    (qThresh (clip255 (100 + (7 / 16) * (qThresh 100).2))).1 = 1 := by
  refine ⟨?_, ?_, ?_⟩
  · norm_num [apply_floyd_steinberg_dithering, fsAux, qThresh, clip255, List.replicate,
      List.zipWith]
  · norm_num [qThresh]
  · norm_num [qThresh, clip255]

/-- C4 (amended): for rows before the last, the residual of pixel `j` is
written with weight 7/16 to position `j+1` of the *current* row's error
buffer (already consumed, so it never affects any quantization), and
with weights 3/16, 5/16, 1/16 to positions `j-1`, `j`, `j+1` of the next
row's buffer; the last row distributes nothing.  Consequently the
indices equal those of the no-east variant `fsNoEast` on every
rectangular image. -/
theorem c4_east_weight_never_applied (data : List (List Rat)) (q : Rat → Nat × Rat)
    (hrect : ∀ r ∈ data, r.length = (data.headD []).length) :
    apply_floyd_steinberg_dithering data q = fsNoEast data q ∧
    (∀ (qErr : List Rat) (j wdt : Nat), j + 1 < qErr.length → 1 < wdt →
      (eastVec qErr).getD (j + 1) 0 = qErr.getD j 0 * (7 / 16) ∧
      (swVec qErr).getD j 0 = qErr.getD (j + 1) 0 * (3 / 16) ∧
      (sVec qErr).getD j 0 = qErr.getD j 0 * (5 / 16) ∧
      (seVec wdt qErr).getD (j + 1) 0 = qErr.getD j 0 * (1 / 16)) :=
  ⟨apply_fsd_eq_noEast data q hrect,
    fun qErr j wdt hj hw => fsWeights qErr j wdt hj hw⟩

/-- C4 witness: the amended theorem applied to a rectangular 2x2 image
and the two-level quantizer. -/
theorem c4_east_weight_never_applied_witness :
    (∀ r ∈ [[(1 : Rat), 2], [3, 4]], r.length =
      (([[(1 : Rat), 2], [3, 4]] : List (List Rat)).headD []).length) ∧
    apply_floyd_steinberg_dithering [[(1 : Rat), 2], [3, 4]] qThresh =
      fsNoEast [[(1 : Rat), 2], [3, 4]] qThresh := by
  have hr : ∀ r ∈ [[(1 : Rat), 2], [3, 4]], r.length =
      (([[(1 : Rat), 2], [3, 4]] : List (List Rat)).headD []).length := by
    simp
  exact ⟨hr, (c4_east_weight_never_applied [[(1 : Rat), 2], [3, 4]] qThresh hr).1⟩

/-- C5: the spec (and the repository's own tests) scale rasters in three
cases - keep images of width at most 100, halve widths in (100, 306],
and clamp wider images to width 153 with height `round(H*153/W)`.  The
code has no keep case and uses `ceil`: an 80x80 image is halved to 40x40
(the test expects 80x80), and 400x50 maps to height `ceil(19.125) = 20`
(the test expects `int(19.125) = 19`); 150x150 still gives the 75x75 the
tests expect. -/
theorem c5_scaling_always_halves :
    scale_dims 80 80 = (40, 40) ∧
    scale_dims 80 80 ≠ (80, 80) ∧
    scale_dims 400 50 = (153, 20) ∧
    scale_dims 150 150 = (75, 75) := by
  refine ⟨by decide, by decide, by decide, by decide⟩

/-- C6 counterexample: two `img` slots whose tasks complete in reverse
order receive NAME 2 for the first document slot and NAME 1 for the
second, while document-order completion yields 1 then 2 - the NAME
sequence depends on completion order because `next_ebd_ref` is read and
incremented in `_handle_converted_image` at completion time, not at
slot-reservation time. -/
theorem c6_names_counterexample :
    bufOf (runPage cfg512 [imgEvent "/a.png", imgEvent "/b.png"]
      [(1, .success ebd1), (0, .success ebd1)]) =
      [envChunk ebd1 2, envChunk ebd1 1] ∧
    bufOf (runPage cfg512 [imgEvent "/a.png", imgEvent "/b.png"]
      (docComps 0 [ebd1, ebd1])) = [envChunk ebd1 1, envChunk ebd1 2] ∧
    envChunk ebd1 2 ≠ envChunk ebd1 1 := by
  refine ⟨by decide, by decide, by decide⟩

/-- C6 (amended): NAME integers are assigned sequentially in completion
order; in particular when the image tasks of a page of `img` tags
complete in document order (and every envelope fits the budget), the
document-order NAME sequence is `1, 2, ..., k`. -/
theorem c6_names_in_completion_order (cfg : Config) (urls : List String)
    (es : List EBDImage) (hlen : es.length = urls.length)
    (hcnt : urls.length ≤ cfg.maxImages)
    (hfit : CompsFit cfg
      { initState with
        buffer := List.replicate urls.length ""
        tasks := taskList 0 urls
        imageCount := urls.length }
      (docComps 0 es) = true) :
    bufOf (runPage cfg (urls.map imgEvent) (docComps 0 es)) = envelopes 1 es :=
  names_follow_doc_completions cfg urls es hlen hcnt hfit

/-- C6 witness: the amended theorem applied to a two-image page. -/
theorem c6_names_in_completion_order_witness :
    ([ebd1, ebd1].length = (["/a.png", "/b.png"] : List String).length) ∧
    bufOf (runPage cfg512 ((["/a.png", "/b.png"] : List String).map imgEvent)
      (docComps 0 [ebd1, ebd1])) = envelopes 1 [ebd1, ebd1] :=
  ⟨by decide,
    c6_names_in_completion_order cfg512 ["/a.png", "/b.png"] [ebd1, ebd1]
      (by decide) (by decide) (by decide)⟩

/-- C7 counterexample: inside the unknown tag `<foo>`, the whitelisted
child `<b>hi</b>` is rendered in full - the suppression flag is reset by
any supported start tag, so children of unknown tags do appear in the
output, refuting the claim that nothing is emitted until the matching
end tag. -/
theorem c7_children_rendered :
    bufOf (runPage cfg512 [.startTag "foo" [], .startTag "b" [],
      .textData "hi", .endTag "b", .endTag "foo"] []) =
      ["<B>\n", "hi\n", "</B>\n"] := by
  decide

/-- C7 (amended): an unknown start tag only clears `parsing_supported_tag`
and emits nothing; while the flag is clear, text is dropped and unknown
end tags emit nothing and do not restore the flag; but the next
whitelisted non-img start tag sets the flag back and is emitted, so
suppression ends at the first supported child rather than at the
matching end tag. -/
theorem c7_suppression_until_supported_tag (cfg : Config) (s : PState)
    (tag tag2 dataStr : String) (attrs attrs2 : List (String × String))
    (hunk : SUPPORTED_TAGS.contains (pyUpper tag) = false)
    (hsup : SUPPORTED_TAGS.contains (pyUpper tag2) = true)
    (himg : (tag2 == "img") = false)
    (hfit : s.totalSize + (build_tag_string tag2 (if (tag2 == "a") = true then
      fix_link_urls cfg.resolve cfg.baseUrl attrs2 else attrs2)).utf8ByteSize ≤
      cfg.maxSize) :
    handle_starttag cfg s tag attrs = .ok { s with parsingSupported := false } ∧
    handle_data cfg { s with parsingSupported := false } dataStr =
      .ok { s with parsingSupported := false } ∧
    handle_endtag cfg { s with parsingSupported := false } tag =
      .ok { s with parsingSupported := false } ∧
    handle_starttag cfg { s with parsingSupported := false } tag2 attrs2 =
      .ok { s with parsingSupported := true
                   totalSize := s.totalSize + (build_tag_string tag2
                     (if (tag2 == "a") = true then
                       fix_link_urls cfg.resolve cfg.baseUrl attrs2 else attrs2)).utf8ByteSize
                   buffer := s.buffer ++ [build_tag_string tag2
                     (if (tag2 == "a") = true then
                       fix_link_urls cfg.resolve cfg.baseUrl attrs2 else attrs2)] } :=
  unknown_tag_suppression cfg s tag tag2 dataStr attrs attrs2 hunk hsup himg hfit

/-- C7 witness: the amended theorem applied to the unknown tag `foo`, the
supported tag `b` and the fresh parser state. -/
theorem c7_suppression_witness :
    SUPPORTED_TAGS.contains (pyUpper "foo") = false ∧
    handle_starttag cfg512 initState "foo" [] =
      .ok { initState with parsingSupported := false } :=
  ⟨by decide,
    (c7_suppression_until_supported_tag cfg512 initState "foo" "b" "x" [] []
      (by decide) (by decide) (by decide) (by decide)).1⟩


/-- C8: for every `<a href=...>` the emitted attribute value is the href
resolved against the page base URL with an `https:` scheme rewritten to
`http:`; in particular `/x` against `http://ex.com/p` yields
`http://ex.com/x`, and `https://y.com/` yields `http://y.com/`. -/
theorem c8_href_resolved_and_downgraded (base href : String) :
    fix_link_urls urljoin_model base [("href", href)] =
      [("href", httpsToHttp (urljoin_model base href))] ∧
    build_tag_string "a" (fix_link_urls urljoin_model base [("href", href)]) =
      "<A HREF=\"" ++ httpsToHttp (urljoin_model base href) ++ "\">\n" ∧
    urljoin_model "http://ex.com/p" "/x" = "http://ex.com/x" ∧
    httpsToHttp (urljoin_model "http://ex.com/p" "/x") = "http://ex.com/x" ∧
    urljoin_model "http://ex.com/p" "https://y.com/" = "https://y.com/" ∧
    httpsToHttp "https://y.com/" = "http://y.com/" ∧
    build_tag_string "a" (fix_link_urls urljoin_model "http://ex.com/p"
      [("href", "https://y.com/")]) = "<A HREF=\"http://y.com/\">\n" := by
  refine ⟨?_, ?_, by decide, by decide, by decide, by decide, by decide⟩
  · simp [fix_link_urls]
  · show build_tag_string "a" [("href", httpsToHttp (urljoin_model base href))] = _
    generalize httpsToHttp (urljoin_model base href) = v
    show "<A HREF=\"" ++ v ++ "\"" ++ ">\n" = _
    rw [String.append_assoc, show ("\"" ++ ">\n" : String) = "\">\n" from rfl]

/-- C9: for depth 4 the `compressed` flag of `convert_gs` selects the
opposite of its name - `compressed = true` returns mode 4 with the
uncompressed two-nibbles-per-byte packing, `compressed = false` returns
mode 5 with the scanline-compressed stream - while for depth 2 the flag
behaves as named. -/
theorem c9_depth4_compressed_flag_swapped (gs : List (List Nat)) (width : Nat) :
    convert_gs gs width 4 true = .ok (4, convert_mode4 gs) ∧
    convert_gs gs width 4 false = (convert_mode5 gs width).map (fun d => (5, d)) ∧
    convert_gs gs width 2 true = (convert_mode3 gs width).map (fun d => (3, d)) ∧
    convert_gs gs width 2 false = .ok (2, convert_mode2 gs) ∧
    convert_mode5 gs width =
      compress_data_with_scanline (convert_mode4 gs) ((width + 3) / 4) :=
  ⟨rfl, rfl, rfl, rfl, rfl⟩

/-- C10: `compress_mode9` is fully determined by the original pixel
values - it equals the variant with the Floyd-Steinberg error-diffusion
phase removed, for every quantizer pair and every image. -/
theorem c10_mode9_output_ignores_dithering (fcpiE : Pixel → Err → Nat × Err)
    (fcpi : Pixel → Nat) (width height : Nat) (data : List Pixel) :
    compress_mode9 fcpiE fcpi width height data =
      compress_mode9_no_dither fcpi width height data :=
  mode9_no_dither_eq fcpiE fcpi width height data

end OpenXiino
